import Mathlib

/-!
# Verification of the osm-xml map-data library

Shallow embedding of the library's data model (`src/elements.rs`, `src/lib.rs`),
its streaming document parser (`src/lib.rs`), and its polygon classifier
(`src/polygon.rs`), together with theorems settling the specification claims.

Conventions of the embedding:
* Rust `Vec` becomes `List`; `push` becomes appending a singleton at the end.
* Machine integers (`i64` ids) become `Int`; no arithmetic is performed on them
  in the embedded code, only equality tests.
* The coordinate type `f64` and the standard-library `FromStr` parsers for
  `f64`/`i64` are external collaborators of the core (the spec places them out
  of scope), so the embedding is parametric in a coordinate type `C` and in
  the two parsing functions `parseF : String → Option C` and
  `parseI : String → Option Id`, exactly as the Rust `find_attribute<T>` is
  generic in `T : FromStr`.  Parse failure is `none`.
* The external streaming XML tokenizer is modelled by a finite list of
  `XmlEvent`s; the `Err` results the tokenizer can return from `next()` are
  modelled by the event `XmlEvent.error`.  An exhausted event list inside an
  element consumer corresponds to the tokenizer reporting an end-of-stream
  syntax error (the real tokenizer never emits `EndDocument` while an element
  is open), so the loops return the tokenizer-error outcome there.
-/

namespace OsmXml

abbrev Id := Int
abbrev Role := String

/-- `Tag` record of `elements.rs` / `lib.rs`: a key/value metadata pair. -/
structure Tag where
  key : String
  val : String
deriving DecidableEq, Repr

/-- `Bounds` record, parametric in the coordinate type. -/
structure Bounds (C : Type) where
  minlat : C
  minlon : C
  maxlat : C
  maxlon : C
deriving DecidableEq, Repr

/-- `UnresolvedReference` enum: an id typed by the kind of its target. -/
inductive UnresolvedReference where
  | node (id : Id)
  | way (id : Id)
  | relation (id : Id)
deriving DecidableEq, Repr

/-- `Node` record, parametric in the coordinate type. -/
structure Node (C : Type) where
  id : Id
  lat : C
  lon : C
  tags : List Tag
deriving DecidableEq, Repr

/-- `Way` record: id, tags and an ordered list of node references. -/
structure Way where
  id : Id
  tags : List Tag
  nodes : List UnresolvedReference
deriving DecidableEq, Repr

/-- `Member` enum of a relation: a typed reference plus a role string. -/
inductive Member where
  | node (r : UnresolvedReference) (role : Role)
  | way (r : UnresolvedReference) (role : Role)
  | relation (r : UnresolvedReference) (role : Role)
deriving DecidableEq, Repr

/-- `Relation` record. -/
structure Relation where
  id : Id
  members : List Member
  tags : List Tag
deriving DecidableEq, Repr

/-- `Reference`: the result of resolving an `UnresolvedReference` against the
model.  The Rust variants borrow from the model; the embedding carries the
record itself, and the resolution theorems show it is the stored one. -/
inductive Reference (C : Type) where
  | node (n : Node C)
  | way (w : Way)
  | relation (r : Relation)
  | unresolved
deriving DecidableEq, Repr

/-- The `OSM` aggregate: bounds plus the owned element collections. -/
structure OSM (C : Type) where
  bounds : Option (Bounds C)
  nodes : List (Node C)
  ways : List Way
  relations : List Relation
deriving DecidableEq, Repr

/-- `OSM::empty`. -/
def OSM.empty (C : Type) : OSM C :=
  { bounds := none, nodes := [], ways := [], relations := [] }

/-! ## Polygon classifier (`src/polygon.rs`) -/

/-- `RuleType` enum of `polygon.rs`. -/
inductive RuleType where
  | all
  | blacklist
  | whitelist
deriving DecidableEq, Repr

/-- `Rule` record of `polygon.rs`: key, policy, and a six-slot value array
whose unused slots hold the empty string. -/
structure Rule where
  key : String
  polygon : RuleType
  values : List String
deriving DecidableEq, Repr

/-- The static 26-entry table `RULES` of `polygon.rs`, in source order. -/
def RULES : List Rule :=
  [ { key := "building", polygon := .all, values := ["", "", "", "", "", ""] },
    { key := "highway", polygon := .whitelist,
      values := ["services", "rest_area", "escape", "elevator", "", ""] },
    { key := "natural", polygon := .blacklist,
      values := ["coastline", "cliff", "ridge", "arete", "tree_row", ""] },
    { key := "landuse", polygon := .all, values := ["", "", "", "", "", ""] },
    { key := "waterway", polygon := .whitelist,
      values := ["riverbank", "dock", "boatyard", "dam", "", ""] },
    { key := "amenity", polygon := .all, values := ["", "", "", "", "", ""] },
    { key := "leisure", polygon := .all, values := ["", "", "", "", "", ""] },
    { key := "barrier", polygon := .whitelist,
      values := ["city_wall", "ditch", "hedge", "retaining_wall", "wall", "spikes"] },
    { key := "railway", polygon := .whitelist,
      values := ["station", "turntable", "roundhouse", "platform", "", ""] },
    { key := "area", polygon := .all, values := ["", "", "", "", "", ""] },
    { key := "boundary", polygon := .all, values := ["", "", "", "", "", ""] },
    { key := "man_made", polygon := .blacklist,
      values := ["cutline", "embankment", "pipeline", "", "", ""] },
    { key := "power", polygon := .whitelist,
      values := ["plant", "substation", "generator", "transformer", "", ""] },
    { key := "place", polygon := .all, values := ["", "", "", "", "", ""] },
    { key := "shop", polygon := .all, values := ["", "", "", "", "", ""] },
    { key := "aeroway", polygon := .blacklist,
      values := ["taxiway", "", "", "", "", ""] },
    { key := "tourism", polygon := .all, values := ["", "", "", "", "", ""] },
    { key := "historic", polygon := .all, values := ["", "", "", "", "", ""] },
    { key := "public_transport", polygon := .all, values := ["", "", "", "", "", ""] },
    { key := "office", polygon := .all, values := ["", "", "", "", "", ""] },
    { key := "building:part", polygon := .all, values := ["", "", "", "", "", ""] },
    { key := "military", polygon := .all, values := ["", "", "", "", "", ""] },
    { key := "ruins", polygon := .all, values := ["", "", "", "", "", ""] },
    { key := "area:highway", polygon := .all, values := ["", "", "", "", "", ""] },
    { key := "craft", polygon := .all, values := ["", "", "", "", "", ""] },
    { key := "golf", polygon := .all, values := ["", "", "", "", "", ""] } ]

/-- `is_closed_loop` of `polygon.rs`: `first.and(last)` is `None` exactly when
the node list is empty, in which case the answer is `false`; otherwise the
first and last references are compared. -/
def is_closed_loop (way : Way) : Bool :=
  match way.nodes.head?, way.nodes.getLast? with
  | some f, some l => f == l
  | _, _ => false

/-- `has_matching_rule_value` of `polygon.rs`. -/
def has_matching_rule_value (rule : Rule) (tag : Tag) : Bool :=
  match rule.polygon with
  | .all => true
  | .whitelist => rule.values.any fun v => v != "" && v == tag.val
  | .blacklist => !(rule.values.any fun v => v == tag.val)

/-- `is_polygon` of `polygon.rs`. -/
def is_polygon (way : Way) : Bool :=
  if is_closed_loop way then
    true
  else
    way.tags.any fun tag =>
      RULES.any fun rule =>
        rule.key == tag.key && tag.val != "no" && has_matching_rule_value rule tag

/-! ## Document parser (`src/lib.rs`) -/

/-- An attribute as the tokenizer delivers it; `name` is the local name
(`attr.name.local_name` in the source). -/
structure OwnedAttribute where
  name : String
  value : String
deriving DecidableEq, Repr

/-- The events of the external streaming tokenizer, as the parser consumes
them.  `other` stands for every event the parser ignores (document start,
character data, whitespace, comments, processing instructions); `error`
models a `next()` call returning the tokenizer's `Err` (malformed XML
syntax). -/
inductive XmlEvent where
  | startElement (name : String) (attributes : List OwnedAttribute)
  | endElement (name : String)
  | endDocument
  | other
  | error
deriving DecidableEq, Repr

/-- `AttributeError`: why an attribute lookup failed.  The source's two
unparsable-value reasons (float and int) are merged into `parseError`,
since the embedding is generic in the scalar parser exactly as the Rust
`find_attribute<T : FromStr>` is. -/
inductive AttributeError where
  | missing
  | parseError
  | illegalNesting
deriving DecidableEq, Repr

/-- `ErrorKind`: the parse-error taxonomy of the source. -/
inductive ErrorKind where
  | xmlParseError
  | boundsMissing (e : AttributeError)
  | malformedTag (e : AttributeError)
  | malformedNode (e : AttributeError)
  | malformedWay (e : AttributeError)
  | malformedRelation (e : AttributeError)
  | unknownElement
deriving DecidableEq, Repr

/-- `ElementType`: the recognized element kinds. -/
inductive ElementType where
  | bounds
  | node
  | way
  | relation
  | tag
  | nodeRef
  | member
deriving DecidableEq, Repr

/-- `ElementData`: what one round of the top-level loop produces. -/
inductive ElementData (C : Type) where
  | bounds (minlat minlon maxlat maxlon : C)
  | node (id : Id) (lat lon : C) (tags : List Tag)
  | way (id : Id) (nodes : List UnresolvedReference) (tags : List Tag)
  | relation (r : Relation)
  | endOfDocument
  | ignored
deriving DecidableEq, Repr

/-- The `to_lowercase` call of the source, embedded as a per-character map so
that it evaluates (adequate for the ASCII element and member-type names the
parser compares against). -/
def lowercase (s : String) : String :=
  ⟨s.data.map Char.toLower⟩

/-- `ElementType::from_str`: classify a lower-cased local element name. -/
def element_type_from_str (s : String) : Except ErrorKind ElementType :=
  match lowercase s with
  | "bounds" => .ok .bounds
  | "node" => .ok .node
  | "way" => .ok .way
  | "relation" => .ok .relation
  | "tag" => .ok .tag
  | "nd" => .ok .nodeRef
  | "member" => .ok .member
  | _ => .error .unknownElement

/-- `find_attribute_uncasted`: first attribute with the given (case-sensitive)
name, or `Missing`. -/
def find_attribute_uncasted (name : String) (attrs : List OwnedAttribute) :
    Except AttributeError String :=
  match attrs.find? (fun a => a.name == name) with
  | some a => .ok a.value
  | none => .error .missing

/-- `find_attribute<T>`: look the attribute up, then run the scalar parser
(`T::from_str`, supplied as `fromStr`) on its raw value. -/
def find_attribute {T : Type} (fromStr : String → Option T) (name : String)
    (attrs : List OwnedAttribute) : Except AttributeError T :=
  match find_attribute_uncasted name attrs with
  | .error e => .error e
  | .ok raw =>
    match fromStr raw with
    | some v => .ok v
    | none => .error .parseError

/-- `parse_tag`: requires the `k` and `v` attributes. -/
def parse_tag (attributes : List OwnedAttribute) : Except ErrorKind Tag :=
  match find_attribute_uncasted "k" attributes with
  | .error e => .error (.malformedTag e)
  | .ok key =>
    match find_attribute_uncasted "v" attributes with
    | .error e => .error (.malformedTag e)
    | .ok val => .ok { key := key, val := val }

section Parser

variable {C : Type} (parseF : String → Option C) (parseI : String → Option Id)

/-- `parse_bounds`: a single-shot read of the four coordinate attributes from
the start-event's own attribute list; any failure is a `BoundsMissing`. -/
def parse_bounds (attrs : List OwnedAttribute) : Except ErrorKind (ElementData C) :=
  match find_attribute parseF "minlat" attrs with
  | .error e => .error (.boundsMissing e)
  | .ok minlat =>
    match find_attribute parseF "minlon" attrs with
    | .error e => .error (.boundsMissing e)
    | .ok minlon =>
      match find_attribute parseF "maxlat" attrs with
      | .error e => .error (.boundsMissing e)
      | .ok maxlat =>
        match find_attribute parseF "maxlon" attrs with
        | .error e => .error (.boundsMissing e)
        | .ok maxlon => .ok (.bounds minlat minlon maxlat maxlon)

/-- The child-consuming loop of `parse_node`.  Each `parser.next()` becomes
taking the head of the event list; the result pairs the outcome with the
unconsumed rest of the stream.  An exhausted list corresponds to the
tokenizer failing with an end-of-stream syntax error (see the file
comment), hence the `xmlParseError` outcome there. -/
def parse_node_loop (id : Id) (lat lon : C) (tags : List Tag) :
    List XmlEvent → (Except ErrorKind (ElementData C)) × List XmlEvent
  | [] => (.error .xmlParseError, [])
  | e :: rest =>
    match e with
    | .endElement name =>
      match element_type_from_str name with
      | .error err => (.error err, rest)
      | .ok .node => (.ok (.node id lat lon tags), rest)
      | .ok _ => parse_node_loop id lat lon tags rest
    | .startElement name attributes =>
      match element_type_from_str name with
      | .error err => (.error err, rest)
      | .ok .tag =>
        match parse_tag attributes with
        | .ok t => parse_node_loop id lat lon (tags ++ [t]) rest
        | .error _ => parse_node_loop id lat lon tags rest
      | .ok _ => (.error (.malformedNode .illegalNesting), rest)
    | .error => (.error .xmlParseError, rest)
    | _ => parse_node_loop id lat lon tags rest

/-- `parse_node`: read `id`, `lat`, `lon` from the start-event's attributes
(each failure aborts the node before any further event is consumed), then
consume children. -/
def parse_node (attrs : List OwnedAttribute) (events : List XmlEvent) :
    (Except ErrorKind (ElementData C)) × List XmlEvent :=
  match find_attribute parseI "id" attrs with
  | .error e => (.error (.malformedNode e), events)
  | .ok id =>
    match find_attribute parseF "lat" attrs with
    | .error e => (.error (.malformedNode e), events)
    | .ok lat =>
      match find_attribute parseF "lon" attrs with
      | .error e => (.error (.malformedNode e), events)
      | .ok lon => parse_node_loop id lat lon [] events

/-- The child-consuming loop of `parse_way`. -/
def parse_way_loop (id : Id) (node_refs : List UnresolvedReference) (tags : List Tag) :
    List XmlEvent → (Except ErrorKind (ElementData C)) × List XmlEvent
  | [] => (.error .xmlParseError, [])
  | e :: rest =>
    match e with
    | .endElement name =>
      match element_type_from_str name with
      | .error err => (.error err, rest)
      | .ok .way => (.ok (.way id node_refs tags), rest)
      | .ok _ => parse_way_loop id node_refs tags rest
    | .startElement name attributes =>
      match element_type_from_str name with
      | .error err => (.error err, rest)
      | .ok .tag =>
        match parse_tag attributes with
        | .ok t => parse_way_loop id node_refs (tags ++ [t]) rest
        | .error _ => parse_way_loop id node_refs tags rest
      | .ok .nodeRef =>
        match find_attribute parseI "ref" attributes with
        | .error e => (.error (.malformedWay e), rest)
        | .ok r => parse_way_loop id (node_refs ++ [.node r]) tags rest
      | .ok _ => (.error (.malformedWay .illegalNesting), rest)
    | .error => (.error .xmlParseError, rest)
    | _ => parse_way_loop id node_refs tags rest

/-- `parse_way`: read `id`, then consume children. -/
def parse_way (attrs : List OwnedAttribute) (events : List XmlEvent) :
    (Except ErrorKind (ElementData C)) × List XmlEvent :=
  match find_attribute parseI "id" attrs with
  | .error e => (.error (.malformedWay e), events)
  | .ok id => parse_way_loop parseI id [] [] events

/-- The child-consuming loop of `parse_relation`. -/
def parse_relation_loop (id : Id) (members : List Member) (tags : List Tag) :
    List XmlEvent → (Except ErrorKind (ElementData C)) × List XmlEvent
  | [] => (.error .xmlParseError, [])
  | e :: rest =>
    match e with
    | .endElement name =>
      match element_type_from_str name with
      | .error err => (.error err, rest)
      | .ok .relation =>
        (.ok (.relation { id := id, members := members, tags := tags }), rest)
      | .ok _ => parse_relation_loop id members tags rest
    | .startElement name attributes =>
      match element_type_from_str name with
      | .error err => (.error err, rest)
      | .ok .tag =>
        match parse_tag attributes with
        | .ok t => parse_relation_loop id members (tags ++ [t]) rest
        | .error _ => parse_relation_loop id members tags rest
      | .ok .member =>
        match find_attribute_uncasted "type" attributes with
        | .error e => (.error (.malformedRelation e), rest)
        | .ok elType =>
          match find_attribute parseI "ref" attributes with
          | .error e => (.error (.malformedRelation e), rest)
          | .ok elRef =>
            match find_attribute_uncasted "role" attributes with
            | .error e => (.error (.malformedRelation e), rest)
            | .ok elRole =>
              match lowercase elType with
              | "node" =>
                parse_relation_loop id
                  (members ++ [.node (.node elRef) elRole]) tags rest
              | "way" =>
                parse_relation_loop id
                  (members ++ [.way (.way elRef) elRole]) tags rest
              | "relation" =>
                parse_relation_loop id
                  (members ++ [.relation (.relation elRef) elRole]) tags rest
              | _ => (.error (.malformedRelation .missing), rest)
      | .ok _ => (.error (.malformedRelation .illegalNesting), rest)
    | .error => (.error .xmlParseError, rest)
    | _ => parse_relation_loop id members tags rest

/-- `parse_relation`: read `id`, then consume children. -/
def parse_relation (attrs : List OwnedAttribute) (events : List XmlEvent) :
    (Except ErrorKind (ElementData C)) × List XmlEvent :=
  match find_attribute parseI "id" attrs with
  | .error e => (.error (.malformedRelation e), events)
  | .ok id => parse_relation_loop parseI id [] [] events

/-- `parse_element_data`: pull one event; end-of-document terminates, a
start-event is classified and dispatched, every other event is `Ignored`.
Top-level `Tag`/`NodeRef`/`Member` starts fall into the source's `_`
wildcard and yield `UnknownElement`. -/
def parse_element_data (events : List XmlEvent) :
    (Except ErrorKind (ElementData C)) × List XmlEvent :=
  match events with
  | [] => (.ok .endOfDocument, [])
  | e :: rest =>
    match e with
    | .endDocument => (.ok .endOfDocument, rest)
    | .error => (.error .xmlParseError, rest)
    | .startElement name attributes =>
      match element_type_from_str name with
      | .error err => (.error err, rest)
      | .ok .bounds => (parse_bounds parseF attributes, rest)
      | .ok .node => parse_node parseF parseI attributes rest
      | .ok .way => parse_way parseI attributes rest
      | .ok .relation => parse_relation parseI attributes rest
      | .ok _ => (.error .unknownElement, rest)
    | _ => (.ok .ignored, rest)

/-- Consumed events never reappear: the rest-of-stream returned by
`parse_node_loop` is no longer than its input. -/
def parse_node_loop_len :
    ∀ (evs : List XmlEvent) (id : Id) (lat lon : C) (tags : List Tag),
      ((parse_node_loop id lat lon tags evs).2).length ≤ evs.length := by
  intro evs
  induction evs with
  | nil => intro id lat lon tags; simp [parse_node_loop]
  | cons e rest ih =>
    intro id lat lon tags
    cases e <;> simp only [parse_node_loop, List.length_cons] <;>
      (repeat' split) <;>
      first
        | simp
        | exact Nat.le_succ_of_le (ih ..)

/-- The rest-of-stream returned by `parse_way_loop` is no longer than its
input. -/
def parse_way_loop_len :
    ∀ (evs : List XmlEvent) (id : Id) (nrefs : List UnresolvedReference) (tags : List Tag),
      ((@parse_way_loop C parseI id nrefs tags evs).2).length ≤ evs.length := by
  intro evs
  induction evs with
  | nil => intro id nrefs tags; simp [parse_way_loop]
  | cons e rest ih =>
    intro id nrefs tags
    cases e <;> simp only [parse_way_loop, List.length_cons] <;>
      (repeat' split) <;>
      first
        | simp
        | exact Nat.le_succ_of_le (ih ..)

/-- The rest-of-stream returned by `parse_relation_loop` is no longer than
its input. -/
def parse_relation_loop_len :
    ∀ (evs : List XmlEvent) (id : Id) (members : List Member) (tags : List Tag),
      ((@parse_relation_loop C parseI id members tags evs).2).length ≤ evs.length := by
  intro evs
  induction evs with
  | nil => intro id members tags; simp [parse_relation_loop]
  | cons e rest ih =>
    intro id members tags
    cases e <;> simp only [parse_relation_loop, List.length_cons] <;>
      (repeat' split) <;>
      first
        | simp
        | exact Nat.le_succ_of_le (ih ..)

/-- `parse_element_data` on a non-empty stream always consumes the head
event, and its consumers only ever consume further. -/
def parse_element_data_len (e : XmlEvent) (rest : List XmlEvent) :
    ((parse_element_data parseF parseI (e :: rest)).2).length ≤ rest.length := by
  simp only [parse_element_data]
  split <;> try (repeat' split) <;>
    first
      | simp
      | (simp only [parse_node]; repeat' split) <;>
          first
            | simp
            | exact parse_node_loop_len ..
      | (simp only [parse_way]; repeat' split) <;>
          first
            | simp
            | exact parse_way_loop_len ..
      | (simp only [parse_relation]; repeat' split) <;>
          first
            | simp
            | exact parse_relation_loop_len ..

/-- The top-level loop of `OSM::parse`: dispatch one element at a time,
treating tokenizer failures as fatal, clearing the bounds on a
`BoundsMissing`, skipping every other element-level failure, and appending
each completed record to its collection. -/
def parse_osm_loop (osm : OSM C) : List XmlEvent → Except ErrorKind (OSM C)
  | [] => .ok osm
  | e :: rest =>
    match h : parse_element_data parseF parseI (e :: rest) with
    | (.error .xmlParseError, _) => .error .xmlParseError
    | (.error (.boundsMissing _), rest') =>
      parse_osm_loop { osm with bounds := none } rest'
    | (.error (.malformedTag _), rest') => parse_osm_loop osm rest'
    | (.error (.malformedNode _), rest') => parse_osm_loop osm rest'
    | (.error (.malformedWay _), rest') => parse_osm_loop osm rest'
    | (.error (.malformedRelation _), rest') => parse_osm_loop osm rest'
    | (.error .unknownElement, rest') => parse_osm_loop osm rest'
    | (.ok .endOfDocument, _) => .ok osm
    | (.ok .ignored, rest') => parse_osm_loop osm rest'
    | (.ok (.bounds a b c d), rest') =>
      parse_osm_loop
        { osm with bounds := some { minlat := a, minlon := b, maxlat := c, maxlon := d } }
        rest'
    | (.ok (.node i la lo ts), rest') =>
      parse_osm_loop
        { osm with nodes := osm.nodes ++ [{ id := i, lat := la, lon := lo, tags := ts }] }
        rest'
    | (.ok (.way i ns ts), rest') =>
      parse_osm_loop
        { osm with ways := osm.ways ++ [{ id := i, tags := ts, nodes := ns }] }
        rest'
    | (.ok (.relation rel), rest') =>
      parse_osm_loop { osm with relations := osm.relations ++ [rel] } rest'
termination_by evs => evs.length
decreasing_by
  all_goals
    (have hle := parse_element_data_len parseF parseI e rest
     rw [h] at hle
     simp only [List.length_cons] at hle ⊢
     omega)

/-- `OSM::parse`: run the top-level loop from the empty model. -/
def OSM.parse (events : List XmlEvent) : Except ErrorKind (OSM C) :=
  parse_osm_loop parseF parseI (OSM.empty C) events

end Parser

/-- `OSM::resolve_reference`: dispatch on the reference's kind and scan the
collection of that kind for the first record with the carried id. -/
def OSM.resolve_reference {C : Type} (osm : OSM C) (reference : UnresolvedReference) :
    Reference C :=
  match reference with
  | .node id =>
    match osm.nodes.find? (fun node => node.id == id) with
    | some node => .node node
    | none => .unresolved
  | .way id =>
    match osm.ways.find? (fun way => way.id == id) with
    | some way => .way way
    | none => .unresolved
  | .relation id =>
    match osm.relations.find? (fun relation => relation.id == id) with
    | some relation => .relation relation
    | none => .unresolved

/-- Decidable equality for `Except` results, so concrete runs of the embedded
parser can be checked by `decide`. -/
instance exceptDecidableEq {ε α : Type} [DecidableEq ε] [DecidableEq α] :
    DecidableEq (Except ε α)
  | .error a, .error b =>
    if h : a = b then .isTrue (by rw [h])
    else .isFalse (fun hc => h (Except.error.inj hc))
  | .error _, .ok _ => .isFalse (fun hc => Except.noConfusion hc)
  | .ok _, .error _ => .isFalse (fun hc => Except.noConfusion hc)
  | .ok a, .ok b =>
    if h : a = b then .isTrue (by rw [h])
    else .isFalse (fun hc => h (Except.ok.inj hc))

/-- Modelled from the spec, for comparison with `is_polygon`: the per-rule
policy exactly as §4.5 words it — under `All` "any non-empty, non-no value
counts as area", under `Whitelist` "only listed values count" (the listed
values being the non-empty slots of the rule's array), under `Blacklist`
"all values count except listed ones". -/
def spec_matching_rule_value (rule : Rule) (tag : Tag) : Bool :=
  match rule.polygon with
  | .all => tag.val != "" && tag.val != "no"
  | .whitelist => rule.values.any fun v => v != "" && v == tag.val
  | .blacklist => !(rule.values.any fun v => v != "" && v == tag.val)

/-- Modelled from the spec: the tag-path side of the claimed `is_polygon`
equivalence — some tag matches a rule's key, has value different from
"no", and satisfies that rule's policy as the spec words it. -/
def spec_tag_says_area (way : Way) : Bool :=
  way.tags.any fun tag =>
    RULES.any fun rule =>
      rule.key == tag.key && tag.val != "no" && spec_matching_rule_value rule tag

/-! ## Shared lemmas -/

/-- One unfolding step of the top-level loop on a non-empty stream, stated
with a non-dependent match so later proofs can rewrite with it. -/
theorem parse_osm_loop_step {C : Type} (parseF : String → Option C)
    (parseI : String → Option Id) (osm : OSM C) (e : XmlEvent) (rest : List XmlEvent) :
    parse_osm_loop parseF parseI osm (e :: rest) =
      (match (parse_element_data parseF parseI (e :: rest)).1 with
       | .error .xmlParseError => .error .xmlParseError
       | .error (.boundsMissing _) =>
         parse_osm_loop parseF parseI { osm with bounds := none }
           (parse_element_data parseF parseI (e :: rest)).2
       | .error (.malformedTag _) =>
         parse_osm_loop parseF parseI osm (parse_element_data parseF parseI (e :: rest)).2
       | .error (.malformedNode _) =>
         parse_osm_loop parseF parseI osm (parse_element_data parseF parseI (e :: rest)).2
       | .error (.malformedWay _) =>
         parse_osm_loop parseF parseI osm (parse_element_data parseF parseI (e :: rest)).2
       | .error (.malformedRelation _) =>
         parse_osm_loop parseF parseI osm (parse_element_data parseF parseI (e :: rest)).2
       | .error .unknownElement =>
         parse_osm_loop parseF parseI osm (parse_element_data parseF parseI (e :: rest)).2
       | .ok .endOfDocument => .ok osm
       | .ok .ignored =>
         parse_osm_loop parseF parseI osm (parse_element_data parseF parseI (e :: rest)).2
       | .ok (.bounds a b c d) =>
         parse_osm_loop parseF parseI
           { osm with bounds := some { minlat := a, minlon := b, maxlat := c, maxlon := d } }
           (parse_element_data parseF parseI (e :: rest)).2
       | .ok (.node i la lo ts) =>
         parse_osm_loop parseF parseI
           { osm with nodes := osm.nodes ++ [{ id := i, lat := la, lon := lo, tags := ts }] }
           (parse_element_data parseF parseI (e :: rest)).2
       | .ok (.way i ns ts) =>
         parse_osm_loop parseF parseI
           { osm with ways := osm.ways ++ [{ id := i, tags := ts, nodes := ns }] }
           (parse_element_data parseF parseI (e :: rest)).2
       | .ok (.relation rel) =>
         parse_osm_loop parseF parseI
           { osm with relations := osm.relations ++ [rel] }
           (parse_element_data parseF parseI (e :: rest)).2) := by
  conv_lhs => rw [parse_osm_loop.eq_def]
  split <;> rename_i h
  · exact absurd h (by simp)
  all_goals
    (injection h with h1 h2
     subst h1
     subst h2
     split <;> rename_i h3 <;> simp only [h3])

/-- The policy test of `has_matching_rule_value`, in declarative form. -/
theorem has_matching_rule_value_iff (r : Rule) (t : Tag) :
    has_matching_rule_value r t = true ↔
      (r.polygon = .all ∨
       (r.polygon = .whitelist ∧ ∃ v ∈ r.values, v ≠ "" ∧ v = t.val) ∨
       (r.polygon = .blacklist ∧ ∀ v ∈ r.values, v ≠ t.val)) := by
  cases hp : r.polygon <;>
    simp [has_matching_rule_value, hp, List.any_eq_true, bne_iff_ne]

/-! ## Claims -/

/-- C1 counterexample: the spec's wording of the rule policies disagrees with
`is_polygon` on empty tag values.  A non-closed way tagged `building=""`
is a polygon for the code (policy `All` accepts every value) but not for
the spec's "any non-empty, non-no value"; a non-closed way tagged
`natural=""` is not a polygon for the code (the blacklist's padding empty
strings match) but is one for the spec's "all values count except the
listed ones". -/
theorem claim1_counterexample :
    (is_closed_loop { id := 1, tags := [{ key := "building", val := "" }], nodes := [] } = false ∧
     ¬(is_polygon { id := 1, tags := [{ key := "building", val := "" }], nodes := [] } = true ↔
       spec_tag_says_area { id := 1, tags := [{ key := "building", val := "" }], nodes := [] } = true)) ∧
    (is_closed_loop { id := 2, tags := [{ key := "natural", val := "" }], nodes := [] } = false ∧
     ¬(is_polygon { id := 2, tags := [{ key := "natural", val := "" }], nodes := [] } = true ↔
       spec_tag_says_area { id := 2, tags := [{ key := "natural", val := "" }], nodes := [] } = true)) := by
  decide

/-- C1 (amended): for every way that is not a closed ring, `is_polygon`
returns true iff some tag has the key of one of the 26 rules, a value
different from "no", and satisfies that rule's policy: under `All` any
value counts (the empty string included); under `Whitelist` only the
non-empty listed values count; under `Blacklist` all values count except
those appearing in the rule's six-slot value array (so the empty string
never counts there, the unused slots being empty). -/
theorem claim1_nonloop_polygon_tag_semantics (w : Way) (h : is_closed_loop w = false) :
    is_polygon w = true ↔
      ∃ t ∈ w.tags, ∃ r ∈ RULES, r.key = t.key ∧ t.val ≠ "no" ∧
        (r.polygon = .all ∨
         (r.polygon = .whitelist ∧ ∃ v ∈ r.values, v ≠ "" ∧ v = t.val) ∨
         (r.polygon = .blacklist ∧ ∀ v ∈ r.values, v ≠ t.val)) := by
  simp only [is_polygon, h, Bool.false_eq_true, if_false, List.any_eq_true,
    Bool.and_eq_true, beq_iff_eq, bne_iff_ne, ne_eq, has_matching_rule_value_iff]
  constructor
  · rintro ⟨t, ht, r, hr, ⟨hk, hv⟩, hm⟩
    exact ⟨t, ht, r, hr, hk, hv, hm⟩
  · rintro ⟨t, ht, r, hr, hk, hv, hm⟩
    exact ⟨t, ht, r, hr, ⟨hk, hv⟩, hm⟩

/-- C1 witness: the amended equivalence applied to a concrete non-closed
way tagged `natural=tree`. -/
theorem claim1_witness :
    is_closed_loop { id := 3, tags := [{ key := "natural", val := "tree" }], nodes := [] } = false ∧
    (is_polygon { id := 3, tags := [{ key := "natural", val := "tree" }], nodes := [] } = true ↔
      ∃ t ∈ ({ id := 3, tags := [{ key := "natural", val := "tree" }], nodes := [] } : Way).tags,
        ∃ r ∈ RULES, r.key = t.key ∧ t.val ≠ "no" ∧
          (r.polygon = .all ∨
           (r.polygon = .whitelist ∧ ∃ v ∈ r.values, v ≠ "" ∧ v = t.val) ∨
           (r.polygon = .blacklist ∧ ∀ v ∈ r.values, v ≠ t.val))) :=
  ⟨by decide, claim1_nonloop_polygon_tag_semantics _ (by decide)⟩

/-- C4: a way whose node-reference list is non-empty and starts and ends with
the same reference is a polygon regardless of its tags, and the closed-ring
check is false for a way with an empty node-reference list. -/
theorem claim4_closed_ring_is_polygon :
    (∀ w : Way, w.nodes ≠ [] → w.nodes.head? = w.nodes.getLast? → is_polygon w = true) ∧
    (∀ w : Way, w.nodes = [] → is_closed_loop w = false) := by
  constructor
  · intro w hne he
    have hcl : is_closed_loop w = true := by
      cases hh : w.nodes.head? with
      | none => exact absurd (List.head?_eq_none_iff.mp hh) hne
      | some f =>
        have hl : w.nodes.getLast? = some f := by rw [← he, hh]
        rw [is_closed_loop, hh, hl]
        simp
    simp [is_polygon, hcl]
  · intro w h
    simp [is_closed_loop, h]

/-- C4 witness: a concrete closed ring with no tags is a polygon, and a
concrete way with no node references fails the closed-ring check. -/
theorem claim4_witness :
    is_polygon { id := 1, tags := [], nodes := [.node 5, .node 6, .node 5] } = true ∧
    is_closed_loop { id := 2, tags := [], nodes := [] } = false :=
  ⟨claim4_closed_ring_is_polygon.1
      { id := 1, tags := [], nodes := [.node 5, .node 6, .node 5] } (by decide) (by decide),
   claim4_closed_ring_is_polygon.2 { id := 2, tags := [], nodes := [] } (by decide)⟩

/-- C3: `resolve_reference` dispatches on the reference's kind, searches only
the collection of that kind, returns the stored record on a hit and
`Unresolved` on a miss; the model is passed by shared reference and never
changed (in the embedding the function is pure, so the last conjuncts state
that the result depends only on the collection of the dispatched kind). -/
theorem claim3_resolve_dispatch_hit_miss {C : Type} (osm : OSM C) (id : Id) :
    ((∃ n ∈ osm.nodes, n.id = id) →
       ∃ n ∈ osm.nodes, n.id = id ∧ osm.resolve_reference (.node id) = .node n) ∧
    ((∀ n ∈ osm.nodes, n.id ≠ id) → osm.resolve_reference (.node id) = .unresolved) ∧
    ((∃ w ∈ osm.ways, w.id = id) →
       ∃ w ∈ osm.ways, w.id = id ∧ osm.resolve_reference (.way id) = .way w) ∧
    ((∀ w ∈ osm.ways, w.id ≠ id) → osm.resolve_reference (.way id) = .unresolved) ∧
    ((∃ r ∈ osm.relations, r.id = id) →
       ∃ r ∈ osm.relations, r.id = id ∧ osm.resolve_reference (.relation id) = .relation r) ∧
    ((∀ r ∈ osm.relations, r.id ≠ id) → osm.resolve_reference (.relation id) = .unresolved) ∧
    (∀ (b : Option (Bounds C)) (ws : List Way) (rs : List Relation),
       OSM.resolve_reference { bounds := b, nodes := osm.nodes, ways := ws, relations := rs }
         (.node id) = osm.resolve_reference (.node id)) ∧
    (∀ (b : Option (Bounds C)) (ns : List (Node C)) (rs : List Relation),
       OSM.resolve_reference { bounds := b, nodes := ns, ways := osm.ways, relations := rs }
         (.way id) = osm.resolve_reference (.way id)) ∧
    (∀ (b : Option (Bounds C)) (ns : List (Node C)) (ws : List Way),
       OSM.resolve_reference { bounds := b, nodes := ns, ways := ws, relations := osm.relations }
         (.relation id) = osm.resolve_reference (.relation id)) := by
  refine ⟨?_, ?_, ?_, ?_, ?_, ?_, fun _ _ _ => rfl, fun _ _ _ => rfl, fun _ _ _ => rfl⟩
  · rintro ⟨n, hn, hid⟩
    cases hf : osm.nodes.find? (fun x => x.id == id) with
    | none =>
      exact absurd (by simpa using hid) (by simpa using List.find?_eq_none.mp hf n hn)
    | some m =>
      exact ⟨m, List.mem_of_find?_eq_some hf, by simpa using List.find?_some hf,
        by simp [OSM.resolve_reference, hf]⟩
  · intro hall
    have hf : osm.nodes.find? (fun x => x.id == id) = none :=
      List.find?_eq_none.mpr (fun x hx => by simpa using hall x hx)
    simp [OSM.resolve_reference, hf]
  · rintro ⟨w, hw, hid⟩
    cases hf : osm.ways.find? (fun x => x.id == id) with
    | none =>
      exact absurd (by simpa using hid) (by simpa using List.find?_eq_none.mp hf w hw)
    | some m =>
      exact ⟨m, List.mem_of_find?_eq_some hf, by simpa using List.find?_some hf,
        by simp [OSM.resolve_reference, hf]⟩
  · intro hall
    have hf : osm.ways.find? (fun x => x.id == id) = none :=
      List.find?_eq_none.mpr (fun x hx => by simpa using hall x hx)
    simp [OSM.resolve_reference, hf]
  · rintro ⟨r, hr, hid⟩
    cases hf : osm.relations.find? (fun x => x.id == id) with
    | none =>
      exact absurd (by simpa using hid) (by simpa using List.find?_eq_none.mp hf r hr)
    | some m =>
      exact ⟨m, List.mem_of_find?_eq_some hf, by simpa using List.find?_some hf,
        by simp [OSM.resolve_reference, hf]⟩
  · intro hall
    have hf : osm.relations.find? (fun x => x.id == id) = none :=
      List.find?_eq_none.mpr (fun x hx => by simpa using hall x hx)
    simp [OSM.resolve_reference, hf]

/-- C3 witness: in a model with one node of id 5 and nothing else, resolving
a node reference to 5 hits the stored record and resolving a way reference
to 5 misses. -/
theorem claim3_witness :
    (∃ n ∈ (OSM.mk (C := Int) none [{ id := 5, lat := 0, lon := 0, tags := [] }] [] []).nodes,
       n.id = 5 ∧
       (OSM.mk (C := Int) none [{ id := 5, lat := 0, lon := 0, tags := [] }] [] []).resolve_reference
         (.node 5) = .node n) ∧
    (OSM.mk (C := Int) none [{ id := 5, lat := 0, lon := 0, tags := [] }] [] []).resolve_reference
      (.way 5) = .unresolved :=
  ⟨(claim3_resolve_dispatch_hit_miss
      (OSM.mk (C := Int) none [{ id := 5, lat := 0, lon := 0, tags := [] }] [] []) 5).1
        (by decide),
   ((claim3_resolve_dispatch_hit_miss
      (OSM.mk (C := Int) none [{ id := 5, lat := 0, lon := 0, tags := [] }] [] []) 5).2.2.2.1)
        (by decide)⟩

/-! Helper lemmas about the three child-consuming loops, shared between the
claims below. -/

theorem parse_node_loop_end_own {C : Type} (id : Id) (lat lon : C) (tags : List Tag)
    (nm : String) (rest : List XmlEvent) (h : element_type_from_str nm = .ok .node) :
    parse_node_loop id lat lon tags (.endElement nm :: rest) =
      (.ok (.node id lat lon tags), rest) := by
  simp [parse_node_loop, h]

theorem parse_node_loop_end_skip {C : Type} (id : Id) (lat lon : C) (tags : List Tag)
    (nm : String) (rest : List XmlEvent) (k : ElementType)
    (h : element_type_from_str nm = .ok k) (hk : k ≠ .node) :
    parse_node_loop id lat lon tags (.endElement nm :: rest) =
      parse_node_loop id lat lon tags rest := by
  cases k <;> first | exact absurd rfl hk | simp [parse_node_loop, h]

theorem parse_node_loop_end_err {C : Type} (id : Id) (lat lon : C) (tags : List Tag)
    (nm : String) (rest : List XmlEvent) (err : ErrorKind)
    (h : element_type_from_str nm = .error err) :
    parse_node_loop id lat lon tags (.endElement nm :: rest) = (.error err, rest) := by
  simp [parse_node_loop, h]

theorem parse_node_loop_start_illegal {C : Type} (id : Id) (lat lon : C) (tags : List Tag)
    (nm : String) (attrs : List OwnedAttribute) (rest : List XmlEvent) (k : ElementType)
    (h : element_type_from_str nm = .ok k) (hk : k ≠ .tag) :
    parse_node_loop id lat lon tags (.startElement nm attrs :: rest) =
      (.error (.malformedNode .illegalNesting), rest) := by
  cases k <;> first | exact absurd rfl hk | simp [parse_node_loop, h]

theorem parse_node_loop_tag_ok {C : Type} (id : Id) (lat lon : C) (tags : List Tag)
    (nm : String) (attrs : List OwnedAttribute) (rest : List XmlEvent) (t : Tag)
    (h : element_type_from_str nm = .ok .tag) (ht : parse_tag attrs = .ok t) :
    parse_node_loop id lat lon tags (.startElement nm attrs :: rest) =
      parse_node_loop id lat lon (tags ++ [t]) rest := by
  simp [parse_node_loop, h, ht]

theorem parse_node_loop_tag_err {C : Type} (id : Id) (lat lon : C) (tags : List Tag)
    (nm : String) (attrs : List OwnedAttribute) (rest : List XmlEvent) (err : ErrorKind)
    (h : element_type_from_str nm = .ok .tag) (ht : parse_tag attrs = .error err) :
    parse_node_loop id lat lon tags (.startElement nm attrs :: rest) =
      parse_node_loop id lat lon tags rest := by
  simp [parse_node_loop, h, ht]

theorem parse_way_loop_end_own {C : Type} (parseI : String → Option Id) (id : Id)
    (nrefs : List UnresolvedReference) (tags : List Tag) (nm : String)
    (rest : List XmlEvent) (h : element_type_from_str nm = .ok .way) :
    parse_way_loop (C := C) parseI id nrefs tags (.endElement nm :: rest) =
      (.ok (.way id nrefs tags), rest) := by
  simp [parse_way_loop, h]

theorem parse_way_loop_end_skip {C : Type} (parseI : String → Option Id) (id : Id)
    (nrefs : List UnresolvedReference) (tags : List Tag) (nm : String)
    (rest : List XmlEvent) (k : ElementType)
    (h : element_type_from_str nm = .ok k) (hk : k ≠ .way) :
    parse_way_loop (C := C) parseI id nrefs tags (.endElement nm :: rest) =
      parse_way_loop parseI id nrefs tags rest := by
  cases k <;> first | exact absurd rfl hk | simp [parse_way_loop, h]

theorem parse_way_loop_end_err {C : Type} (parseI : String → Option Id) (id : Id)
    (nrefs : List UnresolvedReference) (tags : List Tag) (nm : String)
    (rest : List XmlEvent) (err : ErrorKind) (h : element_type_from_str nm = .error err) :
    parse_way_loop (C := C) parseI id nrefs tags (.endElement nm :: rest) =
      (.error err, rest) := by
  simp [parse_way_loop, h]

theorem parse_relation_loop_end_own {C : Type} (parseI : String → Option Id) (id : Id)
    (members : List Member) (tags : List Tag) (nm : String) (rest : List XmlEvent)
    (h : element_type_from_str nm = .ok .relation) :
    parse_relation_loop (C := C) parseI id members tags (.endElement nm :: rest) =
      (.ok (.relation { id := id, members := members, tags := tags }), rest) := by
  simp [parse_relation_loop, h]

theorem parse_relation_loop_end_skip {C : Type} (parseI : String → Option Id) (id : Id)
    (members : List Member) (tags : List Tag) (nm : String) (rest : List XmlEvent)
    (k : ElementType) (h : element_type_from_str nm = .ok k) (hk : k ≠ .relation) :
    parse_relation_loop (C := C) parseI id members tags (.endElement nm :: rest) =
      parse_relation_loop parseI id members tags rest := by
  cases k <;> first | exact absurd rfl hk | simp [parse_relation_loop, h]

theorem parse_relation_loop_end_err {C : Type} (parseI : String → Option Id) (id : Id)
    (members : List Member) (tags : List Tag) (nm : String) (rest : List XmlEvent)
    (err : ErrorKind) (h : element_type_from_str nm = .error err) :
    parse_relation_loop (C := C) parseI id members tags (.endElement nm :: rest) =
      (.error err, rest) := by
  simp [parse_relation_loop, h]

/-- C6 counterexample: the claim says a node consumer ignores every end-event
other than its own and keeps looping, but an end-event whose name is not a
recognized element kind (here "foo") aborts the consumer with
`UnknownElement` instead of being skipped. -/
theorem claim6_counterexample :
    ¬ (parse_node_loop (C := Int) 1 0 0 [] [.endElement "foo", .endElement "node"] =
       parse_node_loop (C := Int) 1 0 0 [] [.endElement "node"]) := by
  decide

/-- C6 (amended): each consumer (node, way, relation) terminates successfully
only on the end-event classifying to its own kind; an end-event of a
different *recognized* kind is ignored and the consumer keeps looping; an
end-event whose name is not recognized aborts the consumer with the
classifier's `UnknownElement` error. -/
theorem claim6_consumer_end_event_behaviour :
    ∀ {C : Type} (parseI : String → Option Id) (id : Id) (lat lon : C) (tags : List Tag)
      (nrefs : List UnresolvedReference) (members : List Member) (nm : String)
      (rest : List XmlEvent),
      (element_type_from_str nm = .ok .node →
        parse_node_loop id lat lon tags (.endElement nm :: rest) =
          (.ok (.node id lat lon tags), rest)) ∧
      (∀ k, element_type_from_str nm = .ok k → k ≠ .node →
        parse_node_loop id lat lon tags (.endElement nm :: rest) =
          parse_node_loop id lat lon tags rest) ∧
      (∀ err, element_type_from_str nm = .error err →
        parse_node_loop id lat lon tags (.endElement nm :: rest) = (.error err, rest)) ∧
      (element_type_from_str nm = .ok .way →
        parse_way_loop (C := C) parseI id nrefs tags (.endElement nm :: rest) =
          (.ok (.way id nrefs tags), rest)) ∧
      (∀ k, element_type_from_str nm = .ok k → k ≠ .way →
        parse_way_loop (C := C) parseI id nrefs tags (.endElement nm :: rest) =
          parse_way_loop parseI id nrefs tags rest) ∧
      (∀ err, element_type_from_str nm = .error err →
        parse_way_loop (C := C) parseI id nrefs tags (.endElement nm :: rest) =
          (.error err, rest)) ∧
      (element_type_from_str nm = .ok .relation →
        parse_relation_loop (C := C) parseI id members tags (.endElement nm :: rest) =
          (.ok (.relation { id := id, members := members, tags := tags }), rest)) ∧
      (∀ k, element_type_from_str nm = .ok k → k ≠ .relation →
        parse_relation_loop (C := C) parseI id members tags (.endElement nm :: rest) =
          parse_relation_loop parseI id members tags rest) ∧
      (∀ err, element_type_from_str nm = .error err →
        parse_relation_loop (C := C) parseI id members tags (.endElement nm :: rest) =
          (.error err, rest)) := by
  intro C parseI id lat lon tags nrefs members nm rest
  exact ⟨fun h => parse_node_loop_end_own id lat lon tags nm rest h,
    fun k h hk => parse_node_loop_end_skip id lat lon tags nm rest k h hk,
    fun err h => parse_node_loop_end_err id lat lon tags nm rest err h,
    fun h => parse_way_loop_end_own parseI id nrefs tags nm rest h,
    fun k h hk => parse_way_loop_end_skip parseI id nrefs tags nm rest k h hk,
    fun err h => parse_way_loop_end_err parseI id nrefs tags nm rest err h,
    fun h => parse_relation_loop_end_own parseI id members tags nm rest h,
    fun k h hk => parse_relation_loop_end_skip parseI id members tags nm rest k h hk,
    fun err h => parse_relation_loop_end_err parseI id members tags nm rest err h⟩

/-- C6 witness: concrete instances — a node consumer returns on `</node>`,
skips a `</way>`, and errors on `</foo>`. -/
theorem claim6_witness :
    (parse_node_loop (C := Int) 1 0 0 [] [.endElement "node"] = (.ok (.node 1 0 0 []), []) ∧
     parse_node_loop (C := Int) 1 0 0 [] [.endElement "way", .endElement "node"] =
       parse_node_loop (C := Int) 1 0 0 [] [.endElement "node"]) ∧
    parse_node_loop (C := Int) 1 0 0 [] [.endElement "foo", .endElement "node"] =
      (.error .unknownElement, [.endElement "node"]) :=
  ⟨⟨(claim6_consumer_end_event_behaviour (fun _ => none) 1 0 0 [] [] [] "node" []).1
      (by decide),
    (claim6_consumer_end_event_behaviour (fun _ => none) 1 0 0 [] [] [] "way"
        [.endElement "node"]).2.1 .way (by decide) (by decide)⟩,
   (claim6_consumer_end_event_behaviour (fun _ => none) 1 0 0 [] [] [] "foo"
        [.endElement "node"]).2.2.1 .unknownElement (by decide)⟩

/-- C8: while consuming a node, a nested tag child missing its `k` or `v`
attribute is silently dropped — `parse_tag` fails with a `MalformedTag`
error, nothing is appended, and the consumer continues — while a
well-formed tag child is appended at the end of the accumulated tag list,
preserving order. -/
theorem claim8_malformed_tag_dropped :
    ∀ {C : Type} (id : Id) (lat lon : C) (tags : List Tag) (nm : String)
      (ta : List OwnedAttribute) (rest : List XmlEvent),
      element_type_from_str nm = .ok .tag →
      ((find_attribute_uncasted "k" ta = .error .missing ∨
        find_attribute_uncasted "v" ta = .error .missing) →
        (∃ e, parse_tag ta = .error (.malformedTag e)) ∧
        parse_node_loop id lat lon tags (.startElement nm ta :: rest) =
          parse_node_loop id lat lon tags rest) ∧
      (∀ t, parse_tag ta = .ok t →
        parse_node_loop id lat lon tags (.startElement nm ta :: rest) =
          parse_node_loop id lat lon (tags ++ [t]) rest) := by
  intro C id lat lon tags nm ta rest hnm
  constructor
  · intro hkv
    have hbad : ∃ e, parse_tag ta = .error (.malformedTag e) := by
      rcases hkv with hk | hv
      · exact ⟨.missing, by simp [parse_tag, hk]⟩
      · cases hfk : find_attribute_uncasted "k" ta with
        | error e => exact ⟨e, by simp [parse_tag, hfk]⟩
        | ok key => exact ⟨.missing, by simp [parse_tag, hfk, hv]⟩
    obtain ⟨e, he⟩ := hbad
    exact ⟨⟨e, he⟩, parse_node_loop_tag_err id lat lon tags nm ta rest _ hnm he⟩
  · intro t ht
    exact parse_node_loop_tag_ok id lat lon tags nm ta rest t hnm ht

/-- C8 witness: a tag child with no `v` attribute is dropped and the node
consumer goes on; a well-formed tag child is appended. -/
theorem claim8_witness :
    ((∃ e, parse_tag [⟨"k", "building"⟩] = .error (.malformedTag e)) ∧
     parse_node_loop (C := Int) 1 0 0 [] [.startElement "tag" [⟨"k", "building"⟩], .endElement "node"] =
       parse_node_loop (C := Int) 1 0 0 [] [.endElement "node"]) ∧
    parse_node_loop (C := Int) 1 0 0 [] [.startElement "tag" [⟨"k", "a"⟩, ⟨"v", "b"⟩], .endElement "node"] =
      parse_node_loop (C := Int) 1 0 0 [{ key := "a", val := "b" }] [.endElement "node"] :=
  ⟨(claim8_malformed_tag_dropped 1 0 0 [] "tag" [⟨"k", "building"⟩] [.endElement "node"]
      (by decide)).1 (by decide),
   by
    have := (claim8_malformed_tag_dropped (C := Int) 1 0 0 [] "tag" [⟨"k", "a"⟩, ⟨"v", "b"⟩]
      [.endElement "node"] (by decide)).2 { key := "a", val := "b" } (by decide)
    simpa using this⟩

/-! Per-outcome corollaries of `parse_osm_loop_step`: what the top-level loop
does with each possible result of `parse_element_data`. -/

theorem parse_osm_loop_on_fatal {C : Type} (parseF : String → Option C)
    (parseI : String → Option Id) (osm : OSM C) (e : XmlEvent) (rest rest' : List XmlEvent)
    (h : parse_element_data parseF parseI (e :: rest) = (.error .xmlParseError, rest')) :
    parse_osm_loop parseF parseI osm (e :: rest) = .error .xmlParseError := by
  rw [parse_osm_loop_step, h]

theorem parse_osm_loop_on_bounds_err {C : Type} (parseF : String → Option C)
    (parseI : String → Option Id) (osm : OSM C) (e : XmlEvent) (rest rest' : List XmlEvent)
    (a : AttributeError)
    (h : parse_element_data parseF parseI (e :: rest) = (.error (.boundsMissing a), rest')) :
    parse_osm_loop parseF parseI osm (e :: rest) =
      parse_osm_loop parseF parseI { osm with bounds := none } rest' := by
  rw [parse_osm_loop_step, h]

theorem parse_osm_loop_on_tag_err {C : Type} (parseF : String → Option C)
    (parseI : String → Option Id) (osm : OSM C) (e : XmlEvent) (rest rest' : List XmlEvent)
    (a : AttributeError)
    (h : parse_element_data parseF parseI (e :: rest) = (.error (.malformedTag a), rest')) :
    parse_osm_loop parseF parseI osm (e :: rest) = parse_osm_loop parseF parseI osm rest' := by
  rw [parse_osm_loop_step, h]

theorem parse_osm_loop_on_node_err {C : Type} (parseF : String → Option C)
    (parseI : String → Option Id) (osm : OSM C) (e : XmlEvent) (rest rest' : List XmlEvent)
    (a : AttributeError)
    (h : parse_element_data parseF parseI (e :: rest) = (.error (.malformedNode a), rest')) :
    parse_osm_loop parseF parseI osm (e :: rest) = parse_osm_loop parseF parseI osm rest' := by
  rw [parse_osm_loop_step, h]

theorem parse_osm_loop_on_way_err {C : Type} (parseF : String → Option C)
    (parseI : String → Option Id) (osm : OSM C) (e : XmlEvent) (rest rest' : List XmlEvent)
    (a : AttributeError)
    (h : parse_element_data parseF parseI (e :: rest) = (.error (.malformedWay a), rest')) :
    parse_osm_loop parseF parseI osm (e :: rest) = parse_osm_loop parseF parseI osm rest' := by
  rw [parse_osm_loop_step, h]

theorem parse_osm_loop_on_relation_err {C : Type} (parseF : String → Option C)
    (parseI : String → Option Id) (osm : OSM C) (e : XmlEvent) (rest rest' : List XmlEvent)
    (a : AttributeError)
    (h : parse_element_data parseF parseI (e :: rest) = (.error (.malformedRelation a), rest')) :
    parse_osm_loop parseF parseI osm (e :: rest) = parse_osm_loop parseF parseI osm rest' := by
  rw [parse_osm_loop_step, h]

theorem parse_osm_loop_on_unknown {C : Type} (parseF : String → Option C)
    (parseI : String → Option Id) (osm : OSM C) (e : XmlEvent) (rest rest' : List XmlEvent)
    (h : parse_element_data parseF parseI (e :: rest) = (.error .unknownElement, rest')) :
    parse_osm_loop parseF parseI osm (e :: rest) = parse_osm_loop parseF parseI osm rest' := by
  rw [parse_osm_loop_step, h]

theorem parse_osm_loop_on_eod {C : Type} (parseF : String → Option C)
    (parseI : String → Option Id) (osm : OSM C) (e : XmlEvent) (rest rest' : List XmlEvent)
    (h : parse_element_data parseF parseI (e :: rest) = (.ok .endOfDocument, rest')) :
    parse_osm_loop parseF parseI osm (e :: rest) = .ok osm := by
  rw [parse_osm_loop_step, h]

theorem parse_osm_loop_on_ignored {C : Type} (parseF : String → Option C)
    (parseI : String → Option Id) (osm : OSM C) (e : XmlEvent) (rest rest' : List XmlEvent)
    (h : parse_element_data parseF parseI (e :: rest) = (.ok .ignored, rest')) :
    parse_osm_loop parseF parseI osm (e :: rest) = parse_osm_loop parseF parseI osm rest' := by
  rw [parse_osm_loop_step, h]

theorem parse_osm_loop_on_bounds {C : Type} (parseF : String → Option C)
    (parseI : String → Option Id) (osm : OSM C) (e : XmlEvent) (rest rest' : List XmlEvent)
    (a b c d : C)
    (h : parse_element_data parseF parseI (e :: rest) = (.ok (.bounds a b c d), rest')) :
    parse_osm_loop parseF parseI osm (e :: rest) =
      parse_osm_loop parseF parseI
        { osm with bounds := some { minlat := a, minlon := b, maxlat := c, maxlon := d } }
        rest' := by
  rw [parse_osm_loop_step, h]

theorem parse_osm_loop_on_node {C : Type} (parseF : String → Option C)
    (parseI : String → Option Id) (osm : OSM C) (e : XmlEvent) (rest rest' : List XmlEvent)
    (i : Id) (la lo : C) (ts : List Tag)
    (h : parse_element_data parseF parseI (e :: rest) = (.ok (.node i la lo ts), rest')) :
    parse_osm_loop parseF parseI osm (e :: rest) =
      parse_osm_loop parseF parseI
        { osm with nodes := osm.nodes ++ [{ id := i, lat := la, lon := lo, tags := ts }] }
        rest' := by
  rw [parse_osm_loop_step, h]

theorem parse_osm_loop_on_way {C : Type} (parseF : String → Option C)
    (parseI : String → Option Id) (osm : OSM C) (e : XmlEvent) (rest rest' : List XmlEvent)
    (i : Id) (ns : List UnresolvedReference) (ts : List Tag)
    (h : parse_element_data parseF parseI (e :: rest) = (.ok (.way i ns ts), rest')) :
    parse_osm_loop parseF parseI osm (e :: rest) =
      parse_osm_loop parseF parseI
        { osm with ways := osm.ways ++ [{ id := i, tags := ts, nodes := ns }] }
        rest' := by
  rw [parse_osm_loop_step, h]

theorem parse_osm_loop_on_relation {C : Type} (parseF : String → Option C)
    (parseI : String → Option Id) (osm : OSM C) (e : XmlEvent) (rest rest' : List XmlEvent)
    (rel : Relation)
    (h : parse_element_data parseF parseI (e :: rest) = (.ok (.relation rel), rest')) :
    parse_osm_loop parseF parseI osm (e :: rest) =
      parse_osm_loop parseF parseI { osm with relations := osm.relations ++ [rel] } rest' := by
  rw [parse_osm_loop_step, h]

/-- The top-level loop either completes a model or stops with the tokenizer's
fatal error; no other error kind ever escapes it. -/
theorem parse_osm_loop_ok_or_fatal {C : Type} (parseF : String → Option C)
    (parseI : String → Option Id) :
    ∀ (evs : List XmlEvent) (osm : OSM C),
      (∃ m, parse_osm_loop parseF parseI osm evs = .ok m) ∨
        parse_osm_loop parseF parseI osm evs = .error .xmlParseError := by
  suffices H : ∀ (n : Nat) (evs : List XmlEvent) (osm : OSM C), evs.length ≤ n →
      (∃ m, parse_osm_loop parseF parseI osm evs = .ok m) ∨
        parse_osm_loop parseF parseI osm evs = .error .xmlParseError by
    intro evs osm
    exact H evs.length evs osm le_rfl
  intro n
  induction n with
  | zero =>
    intro evs osm hl
    have he : evs = [] := List.eq_nil_of_length_eq_zero (Nat.le_zero.mp hl)
    subst he
    exact Or.inl ⟨osm, parse_osm_loop.eq_1 parseF parseI osm⟩
  | succ n ih =>
    intro evs osm hl
    cases evs with
    | nil => exact Or.inl ⟨osm, parse_osm_loop.eq_1 parseF parseI osm⟩
    | cons e rest =>
      rcases hpe : parse_element_data parseF parseI (e :: rest) with ⟨res, rest'⟩
      have hlen : rest'.length ≤ n := by
        have hle := parse_element_data_len parseF parseI e rest
        rw [hpe] at hle
        simp at hle
        simp only [List.length_cons] at hl
        omega
      cases res with
      | error err =>
        cases err with
        | xmlParseError =>
          exact Or.inr (parse_osm_loop_on_fatal parseF parseI osm e rest rest' hpe)
        | boundsMissing a =>
          rw [parse_osm_loop_on_bounds_err parseF parseI osm e rest rest' a hpe]
          exact ih rest' _ hlen
        | malformedTag a =>
          rw [parse_osm_loop_on_tag_err parseF parseI osm e rest rest' a hpe]
          exact ih rest' _ hlen
        | malformedNode a =>
          rw [parse_osm_loop_on_node_err parseF parseI osm e rest rest' a hpe]
          exact ih rest' _ hlen
        | malformedWay a =>
          rw [parse_osm_loop_on_way_err parseF parseI osm e rest rest' a hpe]
          exact ih rest' _ hlen
        | malformedRelation a =>
          rw [parse_osm_loop_on_relation_err parseF parseI osm e rest rest' a hpe]
          exact ih rest' _ hlen
        | unknownElement =>
          rw [parse_osm_loop_on_unknown parseF parseI osm e rest rest' hpe]
          exact ih rest' _ hlen
      | ok data =>
        cases data with
        | endOfDocument =>
          exact Or.inl ⟨osm, parse_osm_loop_on_eod parseF parseI osm e rest rest' hpe⟩
        | ignored =>
          rw [parse_osm_loop_on_ignored parseF parseI osm e rest rest' hpe]
          exact ih rest' _ hlen
        | bounds a b c d =>
          rw [parse_osm_loop_on_bounds parseF parseI osm e rest rest' a b c d hpe]
          exact ih rest' _ hlen
        | node i la lo ts =>
          rw [parse_osm_loop_on_node parseF parseI osm e rest rest' i la lo ts hpe]
          exact ih rest' _ hlen
        | way i ns ts =>
          rw [parse_osm_loop_on_way parseF parseI osm e rest rest' i ns ts hpe]
          exact ih rest' _ hlen
        | relation rel =>
          rw [parse_osm_loop_on_relation parseF parseI osm e rest rest' rel hpe]
          exact ih rest' _ hlen

/-- C2: a tokenizer-level failure surfacing from `parse_element_data` aborts
the whole parse with the fatal `XmlParseError`; each element-level failure
(malformed tag, node, way, relation, or unknown element) makes the loop
continue on the rest of the stream with the model unchanged (the failed
element discarded); and the caller always receives either a completed
model or the single fatal error — no other error kind ever escapes. -/
theorem claim2_error_propagation :
    ∀ {C : Type} (parseF : String → Option C) (parseI : String → Option Id),
      (∀ (osm : OSM C) (e : XmlEvent) (rest : List XmlEvent),
        (parse_element_data parseF parseI (e :: rest)).1 = .error .xmlParseError →
          parse_osm_loop parseF parseI osm (e :: rest) = .error .xmlParseError) ∧
      (∀ (osm : OSM C) (e : XmlEvent) (rest : List XmlEvent) (k : ErrorKind),
        (parse_element_data parseF parseI (e :: rest)).1 = .error k →
        ((∃ a, k = .malformedTag a) ∨ (∃ a, k = .malformedNode a) ∨
         (∃ a, k = .malformedWay a) ∨ (∃ a, k = .malformedRelation a) ∨
         k = .unknownElement) →
          parse_osm_loop parseF parseI osm (e :: rest) =
            parse_osm_loop parseF parseI osm (parse_element_data parseF parseI (e :: rest)).2) ∧
      (∀ events : List XmlEvent,
        (∃ m, OSM.parse parseF parseI events = .ok m) ∨
          OSM.parse parseF parseI events = .error .xmlParseError) := by
  intro C parseF parseI
  refine ⟨?_, ?_, ?_⟩
  · intro osm e rest h1
    rcases hpe : parse_element_data parseF parseI (e :: rest) with ⟨res, rest'⟩
    rw [hpe] at h1
    simp only at h1
    subst h1
    exact parse_osm_loop_on_fatal parseF parseI osm e rest rest' hpe
  · intro osm e rest k h1 hk
    rcases hpe : parse_element_data parseF parseI (e :: rest) with ⟨res, rest'⟩
    rw [hpe] at h1
    simp only at h1
    subst h1
    simp only [hpe]
    rcases hk with ⟨a, rfl⟩ | ⟨a, rfl⟩ | ⟨a, rfl⟩ | ⟨a, rfl⟩ | rfl
    · exact parse_osm_loop_on_tag_err parseF parseI osm e rest rest' a hpe
    · exact parse_osm_loop_on_node_err parseF parseI osm e rest rest' a hpe
    · exact parse_osm_loop_on_way_err parseF parseI osm e rest rest' a hpe
    · exact parse_osm_loop_on_relation_err parseF parseI osm e rest rest' a hpe
    · exact parse_osm_loop_on_unknown parseF parseI osm e rest rest' hpe
  · intro events
    exact parse_osm_loop_ok_or_fatal parseF parseI events (OSM.empty C)

/-- C2 witness: a tokenizer error event makes the whole parse fatal, and an
unknown top-level element is skipped with the model untouched. -/
theorem claim2_witness :
    parse_osm_loop (fun _ => (none : Option Int)) (fun _ => none) (OSM.empty Int) [.error] =
      .error .xmlParseError ∧
    parse_osm_loop (fun _ => (none : Option Int)) (fun _ => none) (OSM.empty Int)
        [.startElement "foo" [], .endDocument] =
      parse_osm_loop (fun _ => (none : Option Int)) (fun _ => none) (OSM.empty Int)
        (parse_element_data (fun _ => (none : Option Int)) (fun _ => none)
          [.startElement "foo" [], .endDocument]).2 :=
  ⟨(claim2_error_propagation (fun _ => (none : Option Int)) (fun _ => none)).1
      (OSM.empty Int) .error [] (by decide),
   (claim2_error_propagation (fun _ => (none : Option Int)) (fun _ => none)).2.1
      (OSM.empty Int) (.startElement "foo" []) [.endDocument] .unknownElement (by decide)
      (Or.inr (Or.inr (Or.inr (Or.inr rfl))))⟩

/-- If any of the four coordinate attributes fails to resolve, `parse_bounds`
fails with a `BoundsMissing` error. -/
theorem parse_bounds_fail {C : Type} (parseF : String → Option C)
    (attrs : List OwnedAttribute)
    (h : (∃ e, find_attribute parseF "minlat" attrs = .error e) ∨
         (∃ e, find_attribute parseF "minlon" attrs = .error e) ∨
         (∃ e, find_attribute parseF "maxlat" attrs = .error e) ∨
         (∃ e, find_attribute parseF "maxlon" attrs = .error e)) :
    ∃ a, parse_bounds parseF attrs = .error (.boundsMissing a) := by
  cases h1 : find_attribute parseF "minlat" attrs with
  | error e => exact ⟨e, by simp [parse_bounds, h1]⟩
  | ok a =>
    cases h2 : find_attribute parseF "minlon" attrs with
    | error e => exact ⟨e, by simp [parse_bounds, h1, h2]⟩
    | ok b =>
      cases h3 : find_attribute parseF "maxlat" attrs with
      | error e => exact ⟨e, by simp [parse_bounds, h1, h2, h3]⟩
      | ok c =>
        cases h4 : find_attribute parseF "maxlon" attrs with
        | error e => exact ⟨e, by simp [parse_bounds, h1, h2, h3, h4]⟩
        | ok d =>
          rcases h with ⟨e, he⟩ | ⟨e, he⟩ | ⟨e, he⟩ | ⟨e, he⟩ <;> simp_all

/-- If all four coordinate attributes resolve, `parse_bounds` succeeds with
exactly those four values. -/
theorem parse_bounds_ok {C : Type} (parseF : String → Option C)
    (attrs : List OwnedAttribute) (a b c d : C)
    (h1 : find_attribute parseF "minlat" attrs = .ok a)
    (h2 : find_attribute parseF "minlon" attrs = .ok b)
    (h3 : find_attribute parseF "maxlat" attrs = .ok c)
    (h4 : find_attribute parseF "maxlon" attrs = .ok d) :
    parse_bounds parseF attrs = .ok (.bounds a b c d) := by
  simp [parse_bounds, h1, h2, h3, h4]

/-- C5: on a bounds start-event whose attributes are incomplete or unparsable
the loop stores no partial record — the model's bounds field is reset to
absent, whatever it held before; a Bounds value is stored (exactly the four
parsed values) only when all four attributes parse. -/
theorem claim5_bounds_all_or_nothing :
    ∀ {C : Type} (parseF : String → Option C) (parseI : String → Option Id)
      (osm : OSM C) (nm : String) (attrs : List OwnedAttribute) (rest : List XmlEvent),
      element_type_from_str nm = .ok .bounds →
      (((∃ e, find_attribute parseF "minlat" attrs = .error e) ∨
        (∃ e, find_attribute parseF "minlon" attrs = .error e) ∨
        (∃ e, find_attribute parseF "maxlat" attrs = .error e) ∨
        (∃ e, find_attribute parseF "maxlon" attrs = .error e)) →
         parse_osm_loop parseF parseI osm (.startElement nm attrs :: rest) =
           parse_osm_loop parseF parseI { osm with bounds := none } rest) ∧
      (∀ a b c d,
         find_attribute parseF "minlat" attrs = .ok a →
         find_attribute parseF "minlon" attrs = .ok b →
         find_attribute parseF "maxlat" attrs = .ok c →
         find_attribute parseF "maxlon" attrs = .ok d →
           parse_osm_loop parseF parseI osm (.startElement nm attrs :: rest) =
             parse_osm_loop parseF parseI
               { osm with bounds := some { minlat := a, minlon := b, maxlat := c, maxlon := d } }
               rest) := by
  intro C parseF parseI osm nm attrs rest hnm
  constructor
  · intro hfail
    obtain ⟨a, hpb⟩ := parse_bounds_fail parseF attrs hfail
    have hpe : parse_element_data parseF parseI (.startElement nm attrs :: rest) =
        (.error (.boundsMissing a), rest) := by
      simp [parse_element_data, hnm, hpb]
    exact parse_osm_loop_on_bounds_err parseF parseI osm _ rest rest a hpe
  · intro a b c d h1 h2 h3 h4
    have hpe : parse_element_data parseF parseI (.startElement nm attrs :: rest) =
        (.ok (.bounds a b c d), rest) := by
      simp [parse_element_data, hnm, parse_bounds_ok parseF attrs a b c d h1 h2 h3 h4]
    exact parse_osm_loop_on_bounds parseF parseI osm _ rest rest a b c d hpe

/-- C5 witness: a bounds element missing `maxlon` resets previously stored
bounds to absent; a complete one stores all four values. -/
theorem claim5_witness :
    parse_osm_loop (fun s => some s) (fun _ => (none : Option Id))
        (OSM.mk (C := String) (some { minlat := "0", minlon := "0", maxlat := "0", maxlon := "0" })
          [] [] [])
        [.startElement "bounds" [⟨"minlat", "1"⟩, ⟨"minlon", "2"⟩, ⟨"maxlat", "3"⟩], .endDocument] =
      parse_osm_loop (fun s => some s) (fun _ => (none : Option Id))
        (OSM.mk (C := String) none [] [] []) [.endDocument] ∧
    parse_osm_loop (fun s => some s) (fun _ => (none : Option Id))
        (OSM.mk (C := String) none [] [] [])
        [.startElement "bounds"
          [⟨"minlat", "1"⟩, ⟨"minlon", "2"⟩, ⟨"maxlat", "3"⟩, ⟨"maxlon", "4"⟩], .endDocument] =
      parse_osm_loop (fun s => some s) (fun _ => (none : Option Id))
        (OSM.mk (C := String)
          (some { minlat := "1", minlon := "2", maxlat := "3", maxlon := "4" }) [] [] [])
        [.endDocument] :=
  ⟨(claim5_bounds_all_or_nothing (fun s => some s) (fun _ => none)
      (OSM.mk (C := String) (some { minlat := "0", minlon := "0", maxlat := "0", maxlon := "0" })
        [] [] [])
      "bounds" [⟨"minlat", "1"⟩, ⟨"minlon", "2"⟩, ⟨"maxlat", "3"⟩] [.endDocument]
      (by decide)).1
      (Or.inr (Or.inr (Or.inr ⟨.missing, by decide⟩))),
   (claim5_bounds_all_or_nothing (fun s => some s) (fun _ => none)
      (OSM.mk (C := String) none [] [] [])
      "bounds" [⟨"minlat", "1"⟩, ⟨"minlon", "2"⟩, ⟨"maxlat", "3"⟩, ⟨"maxlon", "4"⟩]
      [.endDocument] (by decide)).2
      "1" "2" "3" "4" (by decide) (by decide) (by decide) (by decide)⟩

/-- C7: a node element with a nested way/relation/node-reference/member
start-event among its children is discarded entirely — the whole document
still parses, the bad node contributes nothing (in particular its id is
absent from the final model whenever nothing else carries that id), the
leftover events of the aborted node are ignored at top level, and
well-formed sibling nodes before and after it are parsed and present. -/
theorem claim7_nested_child_discards_node :
    ∀ {C : Type} (parseF : String → Option C) (parseI : String → Option Id) (osm : OSM C)
      (nmA enA nmBad nmNested closeN closeB nmB enB : String)
      (aAttrs badAttrs nestedAttrs bAttrs : List OwnedAttribute)
      (idA idBad idB : Id) (latA lonA latBad lonBad latB lonB : C) (k : ElementType),
      element_type_from_str nmA = .ok .node →
      element_type_from_str enA = .ok .node →
      element_type_from_str nmBad = .ok .node →
      element_type_from_str nmNested = .ok k →
      (k = .way ∨ k = .relation ∨ k = .nodeRef ∨ k = .member) →
      element_type_from_str nmB = .ok .node →
      element_type_from_str enB = .ok .node →
      find_attribute parseI "id" aAttrs = .ok idA →
      find_attribute parseF "lat" aAttrs = .ok latA →
      find_attribute parseF "lon" aAttrs = .ok lonA →
      find_attribute parseI "id" badAttrs = .ok idBad →
      find_attribute parseF "lat" badAttrs = .ok latBad →
      find_attribute parseF "lon" badAttrs = .ok lonBad →
      find_attribute parseI "id" bAttrs = .ok idB →
      find_attribute parseF "lat" bAttrs = .ok latB →
      find_attribute parseF "lon" bAttrs = .ok lonB →
      (parse_osm_loop parseF parseI osm
          [.startElement nmA aAttrs, .endElement enA,
           .startElement nmBad badAttrs, .startElement nmNested nestedAttrs,
           .endElement closeN, .endElement closeB,
           .startElement nmB bAttrs, .endElement enB, .endDocument] =
        .ok { osm with nodes := osm.nodes ++
               [{ id := idA, lat := latA, lon := lonA, tags := [] },
                { id := idB, lat := latB, lon := lonB, tags := [] }] }) ∧
      (idBad ∉ osm.nodes.map Node.id → idBad ≠ idA → idBad ≠ idB →
        idBad ∉ ({ osm with nodes := osm.nodes ++
               [{ id := idA, lat := latA, lon := lonA, tags := [] },
                { id := idB, lat := latB, lon := lonB, tags := [] }] } : OSM C).nodes.map Node.id) ∧
      ({ id := idA, lat := latA, lon := lonA, tags := [] } : Node C) ∈
        ({ osm with nodes := osm.nodes ++
               [{ id := idA, lat := latA, lon := lonA, tags := [] },
                { id := idB, lat := latB, lon := lonB, tags := [] }] } : OSM C).nodes ∧
      ({ id := idB, lat := latB, lon := lonB, tags := [] } : Node C) ∈
        ({ osm with nodes := osm.nodes ++
               [{ id := idA, lat := latA, lon := lonA, tags := [] },
                { id := idB, lat := latB, lon := lonB, tags := [] }] } : OSM C).nodes := by
  intro C parseF parseI osm nmA enA nmBad nmNested closeN closeB nmB enB
    aAttrs badAttrs nestedAttrs bAttrs idA idBad idB latA lonA latBad lonBad latB lonB k
    hnmA henA hnmBad hnmN hk hnmB henB hidA hlatA hlonA hidBad hlatBad hlonBad hidB hlatB hlonB
  have hktag : k ≠ .tag := by rcases hk with rfl | rfl | rfl | rfl <;> simp
  refine ⟨?_, ?_, by simp, by simp⟩
  · -- run the document step by step
    have hpeA : parse_element_data parseF parseI
        ([.startElement nmA aAttrs, .endElement enA,
          .startElement nmBad badAttrs, .startElement nmNested nestedAttrs,
          .endElement closeN, .endElement closeB,
          .startElement nmB bAttrs, .endElement enB, .endDocument]) =
        (.ok (.node idA latA lonA []),
         [.startElement nmBad badAttrs, .startElement nmNested nestedAttrs,
          .endElement closeN, .endElement closeB,
          .startElement nmB bAttrs, .endElement enB, .endDocument]) := by
      have hln := parse_node_loop_end_own (C := C) idA latA lonA [] enA
        [.startElement nmBad badAttrs, .startElement nmNested nestedAttrs,
         .endElement closeN, .endElement closeB,
         .startElement nmB bAttrs, .endElement enB, .endDocument] henA
      simp [parse_element_data, hnmA, parse_node, hidA, hlatA, hlonA, hln]
    rw [parse_osm_loop_on_node parseF parseI osm _ _ _ _ _ _ _ hpeA]
    have hpeBad : parse_element_data parseF parseI
        ([.startElement nmBad badAttrs, .startElement nmNested nestedAttrs,
          .endElement closeN, .endElement closeB,
          .startElement nmB bAttrs, .endElement enB, .endDocument]) =
        (.error (.malformedNode .illegalNesting),
         [.endElement closeN, .endElement closeB,
          .startElement nmB bAttrs, .endElement enB, .endDocument]) := by
      have hln := parse_node_loop_start_illegal (C := C) idBad latBad lonBad [] nmNested
        nestedAttrs
        [.endElement closeN, .endElement closeB,
         .startElement nmB bAttrs, .endElement enB, .endDocument] k hnmN hktag
      simp [parse_element_data, hnmBad, parse_node, hidBad, hlatBad, hlonBad, hln]
    rw [parse_osm_loop_on_node_err parseF parseI _ _ _ _ _ hpeBad]
    have hpeC1 : parse_element_data parseF parseI
        ([.endElement closeN, .endElement closeB,
          .startElement nmB bAttrs, .endElement enB, .endDocument]) =
        (.ok .ignored,
         [.endElement closeB, .startElement nmB bAttrs, .endElement enB, .endDocument]) := by
      simp [parse_element_data]
    rw [parse_osm_loop_on_ignored parseF parseI _ _ _ _ hpeC1]
    have hpeC2 : parse_element_data parseF parseI
        ([.endElement closeB, .startElement nmB bAttrs, .endElement enB, .endDocument]) =
        (.ok .ignored, [.startElement nmB bAttrs, .endElement enB, .endDocument]) := by
      simp [parse_element_data]
    rw [parse_osm_loop_on_ignored parseF parseI _ _ _ _ hpeC2]
    have hpeB : parse_element_data parseF parseI
        ([.startElement nmB bAttrs, .endElement enB, .endDocument]) =
        (.ok (.node idB latB lonB []), [.endDocument]) := by
      have hln := parse_node_loop_end_own (C := C) idB latB lonB [] enB [.endDocument] henB
      simp [parse_element_data, hnmB, parse_node, hidB, hlatB, hlonB, hln]
    rw [parse_osm_loop_on_node parseF parseI _ _ _ _ _ _ _ _ hpeB]
    have hpeE : parse_element_data parseF parseI ([.endDocument] : List XmlEvent) =
        (.ok (.endOfDocument (C := C)), []) := by
      simp [parse_element_data]
    rw [parse_osm_loop_on_eod parseF parseI _ _ _ _ hpeE]
    simp
  · intro hfresh hA hB
    simp only [List.map_append, List.mem_append] at *
    rintro (hin | hin)
    · exact hfresh hin
    · simp at hin
      rcases hin with h | h
      · exact hA h
      · exact hB h

/-- C7 witness: a concrete document in which the middle node contains a
nested `nd` child; the bad node's id 2 is absent from the result while the
sibling nodes with ids 1 and 3 are present. -/
theorem claim7_witness :
    (parse_osm_loop (fun s => some s)
        (fun s => if s = "1" then some 1 else if s = "2" then some 2 else
                  if s = "3" then some 3 else none)
        (OSM.empty String)
        [.startElement "node" [⟨"id", "1"⟩, ⟨"lat", "a"⟩, ⟨"lon", "b"⟩],
         .endElement "node",
         .startElement "node" [⟨"id", "2"⟩, ⟨"lat", "c"⟩, ⟨"lon", "d"⟩],
         .startElement "nd" [⟨"ref", "1"⟩],
         .endElement "nd", .endElement "node",
         .startElement "node" [⟨"id", "3"⟩, ⟨"lat", "e"⟩, ⟨"lon", "f"⟩],
         .endElement "node", .endDocument] =
      .ok { OSM.empty String with nodes := (OSM.empty String).nodes ++
             [{ id := 1, lat := "a", lon := "b", tags := [] },
              { id := 3, lat := "e", lon := "f", tags := [] }] }) ∧
    (2 : Id) ∉ ({ OSM.empty String with nodes := (OSM.empty String).nodes ++
             [{ id := 1, lat := "a", lon := "b", tags := [] },
              { id := 3, lat := "e", lon := "f", tags := [] }] } : OSM String).nodes.map Node.id := by
  have T := claim7_nested_child_discards_node (fun s => some s)
    (fun s => if s = "1" then some 1 else if s = "2" then some 2 else
              if s = "3" then some 3 else none)
    (OSM.empty String) "node" "node" "node" "nd" "nd" "node" "node" "node"
    [⟨"id", "1"⟩, ⟨"lat", "a"⟩, ⟨"lon", "b"⟩]
    [⟨"id", "2"⟩, ⟨"lat", "c"⟩, ⟨"lon", "d"⟩]
    [⟨"ref", "1"⟩]
    [⟨"id", "3"⟩, ⟨"lat", "e"⟩, ⟨"lon", "f"⟩]
    1 2 3 "a" "b" "c" "d" "e" "f" .nodeRef
    (by decide) (by decide) (by decide) (by decide) (Or.inr (Or.inr (Or.inl rfl)))
    (by decide) (by decide) (by decide) (by decide) (by decide) (by decide) (by decide)
    (by decide) (by decide) (by decide) (by decide)
  exact ⟨T.1, T.2.1 (by decide) (by decide) (by decide)⟩

theorem parse_node_loop_ok_shape {C : Type} :
    ∀ (evs : List XmlEvent) (id : Id) (lat lon : C) (tags : List Tag)
      (res : ElementData C) (rest' : List XmlEvent),
      parse_node_loop id lat lon tags evs = (.ok res, rest') →
      ∃ ts', res = .node id lat lon ts' := by
  intro evs
  induction evs with
  | nil =>
    intro id lat lon tags res rest' h
    simp [parse_node_loop] at h
  | cons e rest ih =>
    intro id lat lon tags res rest' h
    cases e <;> simp only [parse_node_loop] at h <;>
      repeat' (split at h)
    all_goals
      first
      | exact ih _ _ _ _ _ _ h
      | (simp at h; done)
      | (injection h with h1 h2; injection h1 with h1; exact ⟨tags, h1.symm⟩)

theorem parse_way_loop_ok_shape {C : Type} (parseI : String → Option Id) :
    ∀ (evs : List XmlEvent) (id : Id) (nrefs : List UnresolvedReference) (tags : List Tag)
      (res : ElementData C) (rest' : List XmlEvent),
      parse_way_loop (C := C) parseI id nrefs tags evs = (.ok res, rest') →
      (∀ r ∈ nrefs, ∃ j, r = .node j) →
      ∃ ns ts', res = .way id ns ts' ∧ ∀ r ∈ ns, ∃ j, r = .node j := by
  intro evs
  induction evs with
  | nil =>
    intro id nrefs tags res rest' h hinv
    simp [parse_way_loop] at h
  | cons e rest ih =>
    intro id nrefs tags res rest' h hinv
    cases e <;> simp only [parse_way_loop] at h <;>
      repeat' (split at h)
    all_goals
      first
      | exact ih _ _ _ _ _ h hinv
      | (simp at h; done)
      | (injection h with h1 h2; injection h1 with h1; exact ⟨nrefs, tags, h1.symm, hinv⟩)
      | (refine ih _ _ _ _ _ h ?_
         intro r hr
         rcases List.mem_append.mp hr with h' | h'
         · exact hinv r h'
         · simp at h'
           exact ⟨_, h'⟩)

theorem parse_relation_loop_ok_shape {C : Type} (parseI : String → Option Id) :
    ∀ (evs : List XmlEvent) (id : Id) (members : List Member) (tags : List Tag)
      (res : ElementData C) (rest' : List XmlEvent),
      parse_relation_loop (C := C) parseI id members tags evs = (.ok res, rest') →
      ∃ mem ts', res = .relation { id := id, members := mem, tags := ts' } := by
  intro evs
  induction evs with
  | nil =>
    intro id members tags res rest' h
    simp [parse_relation_loop] at h
  | cons e rest ih =>
    intro id members tags res rest' h
    cases e <;> simp only [parse_relation_loop] at h <;>
      repeat' (split at h)
    all_goals
      first
      | exact ih _ _ _ _ _ h
      | (simp at h; done)
      | (injection h with h1 h2; injection h1 with h1; exact ⟨members, tags, h1.symm⟩)

theorem parse_element_data_way_kind {C : Type} (parseF : String → Option C)
    (parseI : String → Option Id) (evs : List XmlEvent) (i : Id)
    (ns : List UnresolvedReference) (ts : List Tag) (rest' : List XmlEvent)
    (h : parse_element_data parseF parseI evs = (.ok (.way i ns ts), rest')) :
    ∀ r ∈ ns, ∃ j, r = .node j := by
  cases evs with
  | nil => simp [parse_element_data] at h
  | cons e rest =>
    cases e <;> simp only [parse_element_data] at h <;>
      repeat' (split at h)
    all_goals try (simp at h; done)
    case startElement.h_2 =>
      -- bounds arm
      injection h with h1 h2
      exact absurd h1 (by
        unfold parse_bounds
        repeat' split
        all_goals simp)
    case startElement.h_3 =>
      -- node arm
      simp only [parse_node] at h
      repeat' (split at h)
      all_goals try (simp at h; done)
      obtain ⟨ts', hts⟩ := parse_node_loop_ok_shape _ _ _ _ _ _ _ h
      simp at hts
    case startElement.h_4 =>
      -- way arm
      simp only [parse_way] at h
      repeat' (split at h)
      all_goals try (simp at h; done)
      obtain ⟨ns', ts', hshape, hkind⟩ :=
        parse_way_loop_ok_shape parseI _ _ _ _ _ _ h (by simp)
      injection hshape with hh1 hh2 hh3
      subst hh2
      exact hkind
    case startElement.h_5 =>
      -- relation arm
      simp only [parse_relation] at h
      repeat' (split at h)
      all_goals try (simp at h; done)
      obtain ⟨mem, ts', hshape⟩ := parse_relation_loop_ok_shape parseI _ _ _ _ _ _ h
      simp at hshape

theorem parse_osm_loop_ways_kind {C : Type} (parseF : String → Option C)
    (parseI : String → Option Id) :
    ∀ (evs : List XmlEvent) (osm : OSM C) (m : OSM C),
      parse_osm_loop parseF parseI osm evs = .ok m →
      (∀ w ∈ osm.ways, ∀ r ∈ w.nodes, ∃ j, r = .node j) →
      ∀ w ∈ m.ways, ∀ r ∈ w.nodes, ∃ j, r = .node j := by
  suffices H : ∀ (n : Nat) (evs : List XmlEvent) (osm m : OSM C), evs.length ≤ n →
      parse_osm_loop parseF parseI osm evs = .ok m →
      (∀ w ∈ osm.ways, ∀ r ∈ w.nodes, ∃ j, r = .node j) →
      ∀ w ∈ m.ways, ∀ r ∈ w.nodes, ∃ j, r = .node j by
    intro evs osm m
    exact H evs.length evs osm m le_rfl
  intro n
  induction n with
  | zero =>
    intro evs osm m hl h hinv
    have he : evs = [] := List.eq_nil_of_length_eq_zero (Nat.le_zero.mp hl)
    subst he
    rw [parse_osm_loop.eq_1] at h
    injection h with h
    subst h
    exact hinv
  | succ n ih =>
    intro evs osm m hl h hinv
    cases evs with
    | nil =>
      rw [parse_osm_loop.eq_1] at h
      injection h with h
      subst h
      exact hinv
    | cons e rest =>
      rcases hpe : parse_element_data parseF parseI (e :: rest) with ⟨res, rest'⟩
      have hlen : rest'.length ≤ n := by
        have hle := parse_element_data_len parseF parseI e rest
        rw [hpe] at hle
        simp at hle
        simp only [List.length_cons] at hl
        omega
      cases res with
      | error err =>
        cases err with
        | xmlParseError =>
          rw [parse_osm_loop_on_fatal parseF parseI osm e rest rest' hpe] at h
          exact absurd h (by simp)
        | boundsMissing a =>
          rw [parse_osm_loop_on_bounds_err parseF parseI osm e rest rest' a hpe] at h
          exact ih rest' _ m hlen h hinv
        | malformedTag a =>
          rw [parse_osm_loop_on_tag_err parseF parseI osm e rest rest' a hpe] at h
          exact ih rest' _ m hlen h hinv
        | malformedNode a =>
          rw [parse_osm_loop_on_node_err parseF parseI osm e rest rest' a hpe] at h
          exact ih rest' _ m hlen h hinv
        | malformedWay a =>
          rw [parse_osm_loop_on_way_err parseF parseI osm e rest rest' a hpe] at h
          exact ih rest' _ m hlen h hinv
        | malformedRelation a =>
          rw [parse_osm_loop_on_relation_err parseF parseI osm e rest rest' a hpe] at h
          exact ih rest' _ m hlen h hinv
        | unknownElement =>
          rw [parse_osm_loop_on_unknown parseF parseI osm e rest rest' hpe] at h
          exact ih rest' _ m hlen h hinv
      | ok data =>
        cases data with
        | endOfDocument =>
          rw [parse_osm_loop_on_eod parseF parseI osm e rest rest' hpe] at h
          injection h with h
          subst h
          exact hinv
        | ignored =>
          rw [parse_osm_loop_on_ignored parseF parseI osm e rest rest' hpe] at h
          exact ih rest' _ m hlen h hinv
        | bounds a b c d =>
          rw [parse_osm_loop_on_bounds parseF parseI osm e rest rest' a b c d hpe] at h
          exact ih rest' _ m hlen h hinv
        | node i la lo ts =>
          rw [parse_osm_loop_on_node parseF parseI osm e rest rest' i la lo ts hpe] at h
          exact ih rest' _ m hlen h hinv
        | way i ns ts =>
          rw [parse_osm_loop_on_way parseF parseI osm e rest rest' i ns ts hpe] at h
          refine ih rest' _ m hlen h ?_
          intro w hw r hr
          rcases List.mem_append.mp hw with hw' | hw'
          · exact hinv w hw' r hr
          · simp at hw'
            subst hw'
            simp at hr
            exact parse_element_data_way_kind parseF parseI _ _ _ _ _ hpe r hr
        | relation rel =>
          rw [parse_osm_loop_on_relation parseF parseI osm e rest rest' rel hpe] at h
          exact ih rest' _ m hlen h hinv

/-- C9: every node reference accumulated by a parsed way is of Node kind. -/
theorem claim9_way_node_refs_are_node_kind :
    ∀ {C : Type} (parseF : String → Option C) (parseI : String → Option Id)
      (events : List XmlEvent) (m : OSM C),
      OSM.parse parseF parseI events = .ok m →
      ∀ w ∈ m.ways, ∀ r ∈ w.nodes, ∃ i, r = .node i := by
  intro C parseF parseI events m h
  exact parse_osm_loop_ways_kind parseF parseI events (OSM.empty C) m h (by simp [OSM.empty])

/-- C9 witness: a parsed one-way document whose way references node 1. -/
theorem claim9_witness :
    OSM.parse (fun s => (some s : Option String))
        (fun s => if s = "1" then some (1 : Id) else none)
        [.startElement "way" [⟨"id", "1"⟩], .startElement "nd" [⟨"ref", "1"⟩],
         .endElement "nd", .endElement "way", .endDocument] =
      .ok (OSM.mk none [] [{ id := 1, tags := [], nodes := [.node 1] }] []) ∧
    (∀ w ∈ (OSM.mk (C := String) none [] [{ id := 1, tags := [], nodes := [.node 1] }] []).ways,
      ∀ r ∈ w.nodes, ∃ i, r = .node i) := by
  have hparse : OSM.parse (fun s => (some s : Option String))
      (fun s => if s = "1" then some (1 : Id) else none)
      [.startElement "way" [⟨"id", "1"⟩], .startElement "nd" [⟨"ref", "1"⟩],
       .endElement "nd", .endElement "way", .endDocument] =
      .ok (OSM.mk none [] [{ id := 1, tags := [], nodes := [.node 1] }] []) := by
    show parse_osm_loop _ _ _ _ = _
    rw [parse_osm_loop_on_way (fun s => (some s : Option String))
      (fun s => if s = "1" then some (1 : Id) else none) (OSM.empty String) _ _
      [.endDocument] 1 [.node 1] [] (by decide)]
    rw [parse_osm_loop_on_eod (fun s => (some s : Option String))
      (fun s => if s = "1" then some (1 : Id) else none) _ _ [] [] (by decide)]
    simp [OSM.empty]
  exact ⟨hparse,
    claim9_way_node_refs_are_node_kind (fun s => (some s : Option String))
      (fun s => if s = "1" then some (1 : Id) else none) _ _ hparse⟩

theorem parse_osm_loop_extends {C : Type} (parseF : String → Option C)
    (parseI : String → Option Id) :
    ∀ (evs : List XmlEvent) (osm m : OSM C),
      parse_osm_loop parseF parseI osm evs = .ok m →
      ∃ sn sw sr, m.nodes = osm.nodes ++ sn ∧ m.ways = osm.ways ++ sw ∧
        m.relations = osm.relations ++ sr := by
  suffices H : ∀ (n : Nat) (evs : List XmlEvent) (osm m : OSM C), evs.length ≤ n →
      parse_osm_loop parseF parseI osm evs = .ok m →
      ∃ sn sw sr, m.nodes = osm.nodes ++ sn ∧ m.ways = osm.ways ++ sw ∧
        m.relations = osm.relations ++ sr by
    intro evs osm m
    exact H evs.length evs osm m le_rfl
  intro n
  induction n with
  | zero =>
    intro evs osm m hl h
    have he : evs = [] := List.eq_nil_of_length_eq_zero (Nat.le_zero.mp hl)
    subst he
    rw [parse_osm_loop.eq_1] at h
    injection h with h
    subst h
    exact ⟨[], [], [], by simp⟩
  | succ n ih =>
    intro evs osm m hl h
    cases evs with
    | nil =>
      rw [parse_osm_loop.eq_1] at h
      injection h with h
      subst h
      exact ⟨[], [], [], by simp⟩
    | cons e rest =>
      rcases hpe : parse_element_data parseF parseI (e :: rest) with ⟨res, rest'⟩
      have hlen : rest'.length ≤ n := by
        have hle := parse_element_data_len parseF parseI e rest
        rw [hpe] at hle
        simp at hle
        simp only [List.length_cons] at hl
        omega
      cases res with
      | error err =>
        cases err with
        | xmlParseError =>
          rw [parse_osm_loop_on_fatal parseF parseI osm e rest rest' hpe] at h
          exact absurd h (by simp)
        | boundsMissing a =>
          rw [parse_osm_loop_on_bounds_err parseF parseI osm e rest rest' a hpe] at h
          exact ih rest' { osm with bounds := none } m hlen h
        | malformedTag a =>
          rw [parse_osm_loop_on_tag_err parseF parseI osm e rest rest' a hpe] at h
          exact ih rest' _ m hlen h
        | malformedNode a =>
          rw [parse_osm_loop_on_node_err parseF parseI osm e rest rest' a hpe] at h
          exact ih rest' _ m hlen h
        | malformedWay a =>
          rw [parse_osm_loop_on_way_err parseF parseI osm e rest rest' a hpe] at h
          exact ih rest' _ m hlen h
        | malformedRelation a =>
          rw [parse_osm_loop_on_relation_err parseF parseI osm e rest rest' a hpe] at h
          exact ih rest' _ m hlen h
        | unknownElement =>
          rw [parse_osm_loop_on_unknown parseF parseI osm e rest rest' hpe] at h
          exact ih rest' _ m hlen h
      | ok data =>
        cases data with
        | endOfDocument =>
          rw [parse_osm_loop_on_eod parseF parseI osm e rest rest' hpe] at h
          injection h with h
          subst h
          exact ⟨[], [], [], by simp⟩
        | ignored =>
          rw [parse_osm_loop_on_ignored parseF parseI osm e rest rest' hpe] at h
          exact ih rest' _ m hlen h
        | bounds a b c d =>
          rw [parse_osm_loop_on_bounds parseF parseI osm e rest rest' a b c d hpe] at h
          exact ih rest'
            { osm with bounds := some { minlat := a, minlon := b, maxlat := c, maxlon := d } }
            m hlen h
        | node i la lo ts =>
          rw [parse_osm_loop_on_node parseF parseI osm e rest rest' i la lo ts hpe] at h
          obtain ⟨sn, sw, sr, h1, h2, h3⟩ := ih rest' _ m hlen h
          exact ⟨{ id := i, lat := la, lon := lo, tags := ts } :: sn, sw, sr,
            by simpa using h1, h2, h3⟩
        | way i ns ts =>
          rw [parse_osm_loop_on_way parseF parseI osm e rest rest' i ns ts hpe] at h
          obtain ⟨sn, sw, sr, h1, h2, h3⟩ := ih rest' _ m hlen h
          exact ⟨sn, { id := i, tags := ts, nodes := ns } :: sw, sr,
            h1, by simpa using h2, h3⟩
        | relation rel =>
          rw [parse_osm_loop_on_relation parseF parseI osm e rest rest' rel hpe] at h
          obtain ⟨sn, sw, sr, h1, h2, h3⟩ := ih rest' _ m hlen h
          exact ⟨sn, sw, rel :: sr, h1, h2, by simpa using h3⟩

theorem find?_first {α : Type} (p : α → Bool) :
    ∀ (pre : List α) (n : α) (post : List α),
      (∀ x ∈ pre, p x = false) → p n = true →
      (pre ++ n :: post).find? p = some n := by
  intro pre
  induction pre with
  | nil =>
    intro n post h hp
    simp [List.find?, hp]
  | cons a l ih =>
    intro n post h hp
    have ha : p a = false := h a (by simp)
    simp only [List.cons_append, List.find?, ha]
    exact ih n post (fun x hx => h x (by simp [hx])) hp

/-- C10: the backing stores are lists appended in document order, so parsing
never overwrites earlier records — whatever a run of the loop adds extends
the existing collections at the end; a document with two well-formed nodes
carrying the same id yields both records, in document order; and on a model
whose kind-space holds several records with the looked-up id, resolution
returns the earliest-stored one. -/
theorem claim10_duplicate_ids_retained_resolve_first :
    (∀ {C : Type} (parseF : String → Option C) (parseI : String → Option Id)
       (evs : List XmlEvent) (osm m : OSM C),
       parse_osm_loop parseF parseI osm evs = .ok m →
       (∃ s, m.nodes = osm.nodes ++ s) ∧ (∃ s, m.ways = osm.ways ++ s) ∧
         (∃ s, m.relations = osm.relations ++ s)) ∧
    (∀ {C : Type} (parseF : String → Option C) (parseI : String → Option Id)
       (nm1 en1 nm2 en2 : String) (a1 a2 : List OwnedAttribute) (i : Id)
       (la1 lo1 la2 lo2 : C),
       element_type_from_str nm1 = .ok .node → element_type_from_str en1 = .ok .node →
       element_type_from_str nm2 = .ok .node → element_type_from_str en2 = .ok .node →
       find_attribute parseI "id" a1 = .ok i → find_attribute parseF "lat" a1 = .ok la1 →
       find_attribute parseF "lon" a1 = .ok lo1 →
       find_attribute parseI "id" a2 = .ok i → find_attribute parseF "lat" a2 = .ok la2 →
       find_attribute parseF "lon" a2 = .ok lo2 →
       OSM.parse parseF parseI
         [.startElement nm1 a1, .endElement en1, .startElement nm2 a2, .endElement en2,
          .endDocument] =
         .ok (OSM.mk none
           [{ id := i, lat := la1, lon := lo1, tags := [] },
            { id := i, lat := la2, lon := lo2, tags := [] }] [] [])) ∧
    (∀ {C : Type} (osm : OSM C) (id : Id),
       (∀ (pre : List (Node C)) (n : Node C) (post : List (Node C)),
          osm.nodes = pre ++ n :: post → (∀ x ∈ pre, x.id ≠ id) → n.id = id →
          osm.resolve_reference (.node id) = .node n) ∧
       (∀ (pre : List Way) (w : Way) (post : List Way),
          osm.ways = pre ++ w :: post → (∀ x ∈ pre, x.id ≠ id) → w.id = id →
          osm.resolve_reference (.way id) = .way w) ∧
       (∀ (pre : List Relation) (r : Relation) (post : List Relation),
          osm.relations = pre ++ r :: post → (∀ x ∈ pre, x.id ≠ id) → r.id = id →
          osm.resolve_reference (.relation id) = .relation r)) := by
  refine ⟨?_, ?_, ?_⟩
  · intro C parseF parseI evs osm m h
    obtain ⟨sn, sw, sr, h1, h2, h3⟩ := parse_osm_loop_extends parseF parseI evs osm m h
    exact ⟨⟨sn, h1⟩, ⟨sw, h2⟩, ⟨sr, h3⟩⟩
  · intro C parseF parseI nm1 en1 nm2 en2 a1 a2 i la1 lo1 la2 lo2
      hnm1 hen1 hnm2 hen2 hid1 hlat1 hlon1 hid2 hlat2 hlon2
    have hpe1 : parse_element_data parseF parseI
        [.startElement nm1 a1, .endElement en1, .startElement nm2 a2, .endElement en2,
         .endDocument] =
        (.ok (.node i la1 lo1 []),
         [.startElement nm2 a2, .endElement en2, .endDocument]) := by
      have hln := parse_node_loop_end_own (C := C) i la1 lo1 [] en1
        [.startElement nm2 a2, .endElement en2, .endDocument] hen1
      simp [parse_element_data, hnm1, parse_node, hid1, hlat1, hlon1, hln]
    have hpe2 : parse_element_data parseF parseI
        ([.startElement nm2 a2, .endElement en2, .endDocument] : List XmlEvent) =
        (.ok (.node i la2 lo2 []), [.endDocument]) := by
      have hln := parse_node_loop_end_own (C := C) i la2 lo2 [] en2 [.endDocument] hen2
      simp [parse_element_data, hnm2, parse_node, hid2, hlat2, hlon2, hln]
    have hpe3 : parse_element_data parseF parseI ([.endDocument] : List XmlEvent) =
        (.ok (.endOfDocument (C := C)), []) := by
      simp [parse_element_data]
    show parse_osm_loop _ _ _ _ = _
    rw [parse_osm_loop_on_node parseF parseI (OSM.empty C) _ _ _ _ _ _ _ hpe1]
    rw [parse_osm_loop_on_node parseF parseI _ _ _ _ _ _ _ _ hpe2]
    rw [parse_osm_loop_on_eod parseF parseI _ _ _ _ hpe3]
    simp [OSM.empty]
  · intro C osm id
    refine ⟨?_, ?_, ?_⟩
    · intro pre n post hsplit hpre hn
      have hfind : osm.nodes.find? (fun x => x.id == id) = some n := by
        rw [hsplit]
        exact find?_first _ pre n post
          (fun x hx => by simpa using hpre x hx) (by simpa using hn)
      simp [OSM.resolve_reference, hfind]
    · intro pre w post hsplit hpre hw
      have hfind : osm.ways.find? (fun x => x.id == id) = some w := by
        rw [hsplit]
        exact find?_first _ pre w post
          (fun x hx => by simpa using hpre x hx) (by simpa using hw)
      simp [OSM.resolve_reference, hfind]
    · intro pre r post hsplit hpre hr
      have hfind : osm.relations.find? (fun x => x.id == id) = some r := by
        rw [hsplit]
        exact find?_first _ pre r post
          (fun x hx => by simpa using hpre x hx) (by simpa using hr)
      simp [OSM.resolve_reference, hfind]

/-- C10 witness: two nodes with id 7 both end up in the model in document
order, the run only appended to the (empty) initial stores, and resolving
node 7 returns the first of the two records. -/
theorem claim10_witness :
    OSM.parse (fun s => (some s : Option String))
        (fun s => if s = "7" then some (7 : Id) else none)
        [.startElement "node" [⟨"id", "7"⟩, ⟨"lat", "a"⟩, ⟨"lon", "b"⟩],
         .endElement "node",
         .startElement "node" [⟨"id", "7"⟩, ⟨"lat", "c"⟩, ⟨"lon", "d"⟩],
         .endElement "node", .endDocument] =
      .ok (OSM.mk none
        [{ id := 7, lat := "a", lon := "b", tags := [] },
         { id := 7, lat := "c", lon := "d", tags := [] }] [] []) ∧
    (∃ s, (OSM.mk none
        [{ id := 7, lat := "a", lon := "b", tags := [] },
         { id := 7, lat := "c", lon := "d", tags := [] }] [] []).nodes =
      (OSM.empty String).nodes ++ s) ∧
    (OSM.mk none
        [{ id := 7, lat := "a", lon := "b", tags := [] },
         { id := 7, lat := "c", lon := "d", tags := [] }] [] []).resolve_reference (.node 7) =
      .node { id := 7, lat := "a", lon := "b", tags := [] } := by
  have hparse := claim10_duplicate_ids_retained_resolve_first.2.1
    (fun s => (some s : Option String)) (fun s => if s = "7" then some (7 : Id) else none)
    "node" "node" "node" "node"
    [⟨"id", "7"⟩, ⟨"lat", "a"⟩, ⟨"lon", "b"⟩] [⟨"id", "7"⟩, ⟨"lat", "c"⟩, ⟨"lon", "d"⟩]
    7 "a" "b" "c" "d"
    (by decide) (by decide) (by decide) (by decide) (by decide) (by decide) (by decide)
    (by decide) (by decide) (by decide)
  refine ⟨hparse, ?_, ?_⟩
  · have hext := claim10_duplicate_ids_retained_resolve_first.1
      (fun s => (some s : Option String)) (fun s => if s = "7" then some (7 : Id) else none)
      [.startElement "node" [⟨"id", "7"⟩, ⟨"lat", "a"⟩, ⟨"lon", "b"⟩],
       .endElement "node",
       .startElement "node" [⟨"id", "7"⟩, ⟨"lat", "c"⟩, ⟨"lon", "d"⟩],
       .endElement "node", .endDocument]
      (OSM.empty String) _ hparse
    exact hext.1
  · exact (claim10_duplicate_ids_retained_resolve_first.2.2
      (OSM.mk none
        [{ id := 7, lat := "a", lon := "b", tags := [] },
         { id := 7, lat := "c", lon := "d", tags := [] }] [] []) 7).1
      [] { id := 7, lat := "a", lon := "b", tags := [] }
      [{ id := 7, lat := "c", lon := "d", tags := [] }]
      (by decide) (by decide) (by decide)

end OsmXml
